import Mathlib

/-!
# A cooperative OSEK-style dispatcher

Shallow embedding of `OSEK.c` / `OSEK.h` and of the three-task program of
`cmsis_button_toggle_led.c`.

* The doubly linked list reached from `g_head_task_sp` is a `List OSEK_Task_t`;
  a pointer to a node is its position in that list (the list is append-only,
  so positions are stable).
* A descriptor that `OSEK_CreateTask` allocates but does not link lives in a
  second list (`unlinked`); pointers to those are `Handle.loose`.
* An entry procedure is the straight-line sequence of OSEK calls its body
  makes before it returns; a NULL function pointer is `none`.
* The call of an entry procedure (`blx r3`) runs on the stack of the
  dispatcher that made it.  `Machine` keeps the live entry-procedure frames
  explicitly; `step` executes one call or one return.
* The jump back to the stack pointer and link register saved by `OSEK_Init`
  ends the run (`Control.restored`); the saved register values themselves are
  not modelled.
* `malloc` is assumed to succeed, `uint8_t` priorities are natural numbers
  (they are only compared, never computed with).
-/

namespace OSEK

/-! ## Data model (OSEK.h) -/

/-- Capacity constant `#define MAX_TASKS 10`. -/
def MAX_TASKS : Nat := 10

/-- Task states, `OSEK_TaskState_t`. -/
inductive OSEK_TaskState_t
  | SUSPENDED
  | READY
  | RUNNING
  | WAITING
  deriving DecidableEq, Repr

/-- Values of type `OSEK_Task_t *`. -/
inductive Handle
  /-- The NULL pointer. -/
  | null
  /-- Pointer to the node at position `i` of the list headed by `g_head_task_sp`. -/
  | node (i : Nat)
  /-- Pointer to the `i`-th descriptor that was allocated but never linked. -/
  | loose (i : Nat)
  deriving DecidableEq, Repr

/-- One OSEK call made by the body of an entry procedure. -/
inductive Call
  | ActivateTask (task_name_sp : Handle)
  | TerminateTask
  | ChainTask (task_name_sp : Handle)
  deriving DecidableEq, Repr

/-- The code behind a non-NULL `OSEK_TaskEntry_t`: the calls the body makes, in
order, after which the function returns. -/
abbrev Body := List Call

/-- Task descriptor `OSEK_Task_t` (the link fields are the list structure, the
never-used `stack_ptr_pu32` is left out). -/
structure OSEK_Task_t where
  priority_u8 : Nat
  autostart_b : Bool
  state_e : OSEK_TaskState_t
  task_addr_pf : Option Body
  deriving DecidableEq, Repr

/-- The globals of `OSEK.c`. -/
structure Kernel where
  /-- The list reached from `g_head_task_sp` through `next_task_sp`. -/
  g_head_task_sp : List OSEK_Task_t
  /-- Descriptors allocated by `OSEK_CreateTask` that were not linked. -/
  unlinked : List OSEK_Task_t
  /-- NULL, or the position of the node `g_actual_task_sp` points to. -/
  g_actual_task_sp : Option Nat
  deriving DecidableEq, Repr

/-- Zero-initialised statics: empty list, no current task. -/
def Kernel.reset : Kernel := ⟨[], [], none⟩

/-- Assignment `p->state_e = st` for the node at position `i`. -/
def setState (st : OSEK_TaskState_t) : Nat → List OSEK_Task_t → List OSEK_Task_t
  | _, [] => []
  | 0, t :: ts => { t with state_e := st } :: ts
  | i + 1, t :: ts => t :: setState st i ts

/-- Assignment `h->state_e = st` through a non-NULL task pointer. -/
def store (k : Kernel) (h : Handle) (st : OSEK_TaskState_t) : Kernel :=
  match h with
  | .null => k
  | .node i => { k with g_head_task_sp := setState st i k.g_head_task_sp }
  | .loose i => { k with unlinked := setState st i k.unlinked }

/-! ## OSEK_Scheduler -/

/-- The search loop of `OSEK_Scheduler` (lines 56-68).  The list argument holds
the nodes from `search_iterator_sp` on, `pos` is the position of the first of
them, `best` is `highest_priority_task_sp` (position and node) and `mx` is
`max_priority_found_u8`. -/
def scan : List OSEK_Task_t → Nat → Option (Nat × OSEK_Task_t) → Nat →
    Option (Nat × OSEK_Task_t)
  | [], _, best, _ => best
  | t :: ts, pos, best, mx =>
    if t.state_e = .READY then
      if t.priority_u8 > mx then scan ts (pos + 1) (some (pos, t)) t.priority_u8
      else scan ts (pos + 1) best mx
    else scan ts (pos + 1) best mx

/-- Value of `highest_priority_task_sp` after the loop: the search starts at the
head with no candidate and a running maximum of 0. -/
def candidate (k : Kernel) : Option (Nat × OSEK_Task_t) :=
  scan k.g_head_task_sp 0 none 0

/-- What one invocation of `OSEK_Scheduler` does with the control flow. -/
inductive Dispatch
  /-- The entry procedure of the node at position `i` is called (`blx r3`). -/
  | run (i : Nat) (body : Body)
  /-- The candidate at position `i` was installed but its entry pointer is NULL:
  diagnostic, `return`. -/
  | missingEntry (i : Nat)
  /-- A candidate was found but the test of line 72 failed: plain return. -/
  | keep
  /-- No candidate: the saved stack pointer and link register are restored. -/
  | restore
  /-- The comparison of line 73 read through a `g_actual_task_sp` that points to no
  node of the list. -/
  | wild
  deriving DecidableEq, Repr

/-- Lines 75-84: install the candidate as current task, mark it RUNNING, fetch
its entry pointer. -/
def install (k : Kernel) (i : Nat) (t : OSEK_Task_t) : Kernel × Dispatch :=
  let k1 : Kernel :=
    { k with g_actual_task_sp := some i
             g_head_task_sp := setState .RUNNING i k.g_head_task_sp }
  match t.task_addr_pf with
  | none => (k1, .missingEntry i)
  | some body => (k1, .run i body)

/-- One invocation of `OSEK_Scheduler` up to the point where it calls the entry
procedure, returns, or jumps back to the saved boundary. -/
def OSEK_Scheduler (k : Kernel) : Kernel × Dispatch :=
  match candidate k with
  | some (i, t) =>
    match k.g_actual_task_sp with
    | none => install k i t
    | some c =>
      match k.g_head_task_sp[c]? with
      | none => (k, .wild)
      | some tc =>
        if t.priority_u8 > tc.priority_u8 then install k i t else (k, .keep)
  | none => (k, .restore)

/-! ## OSEK_CreateTask -/

/-- The `for` loop of lines 135-142 followed by the test of line 144.  The first
argument counts the iterations still allowed (`MAX_TASKS - i`), the list holds
the nodes from `iterator_task_sp` on.  Result: those nodes after the loop,
whether the new node was linked, and whether the test of line 144 found
`iterator_task_sp->next_task_sp == NULL`. -/
def linkLoop (new_task_sp : OSEK_Task_t) :
    Nat → List OSEK_Task_t → List OSEK_Task_t × Bool × Bool
  | _, [] => ([], false, false)
  | 0, t :: ts => (t :: ts, false, ts.isEmpty)
  | _ + 1, [t] => ([t, new_task_sp], true, false)
  | n + 1, t :: u :: ts =>
    let r := linkLoop new_task_sp n (u :: ts)
    (t :: r.1, r.2.1, r.2.2)

/-- The descriptor `OSEK_CreateTask` allocates and fills in (lines 116-123). -/
def newTask (task_name_fp : Option Body) (task_priority_u8 : Nat) (task_autostart_b : Bool) :
    OSEK_Task_t :=
  { priority_u8 := task_priority_u8
    autostart_b := task_autostart_b
    state_e := if task_autostart_b then .READY else .SUSPENDED
    task_addr_pf := task_name_fp }

/-- Result of `OSEK_CreateTask`: the globals afterwards, the returned pointer,
and whether the "Max. number of Tasks reached!" diagnostic was printed. -/
structure Created where
  os : Kernel
  handle : Handle
  maxReached : Bool
  deriving DecidableEq, Repr

/-- Function `OSEK_CreateTask` (lines 114-152). -/
def OSEK_CreateTask (k : Kernel) (task_name_fp : Option Body) (task_priority_u8 : Nat)
    (task_autostart_b : Bool) : Created :=
  let new_task_sp := newTask task_name_fp task_priority_u8 task_autostart_b
  match k.g_head_task_sp with
  | [] => ⟨{ k with g_head_task_sp := [new_task_sp] }, .node 0, false⟩
  | t :: ts =>
    let r := linkLoop new_task_sp (MAX_TASKS - 1) (t :: ts)
    if r.2.1 then
      ⟨{ k with g_head_task_sp := r.1 }, .node (t :: ts).length, r.2.2⟩
    else
      ⟨{ k with g_head_task_sp := r.1, unlinked := k.unlinked ++ [new_task_sp] },
        .loose k.unlinked.length, r.2.2⟩

/-- Arguments of one `OSEK_CreateTask` call. -/
structure CreateArgs where
  task_name_fp : Option Body
  task_priority_u8 : Nat
  task_autostart_b : Bool
  deriving DecidableEq, Repr

/-- A sequence of `OSEK_CreateTask` calls, made one after the other. -/
def createAll : Kernel → List CreateArgs → Kernel
  | k, [] => k
  | k, a :: as =>
    createAll (OSEK_CreateTask k a.task_name_fp a.task_priority_u8 a.task_autostart_b).os as

/-! ## Life-cycle calls -/

/-- What a life-cycle call does before control leaves it. -/
inductive Outcome
  /-- Diagnostic "Task empty" and `return`; `OSEK_Scheduler` is not called. -/
  | error (k : Kernel)
  /-- The states were updated to `pre` and `OSEK_Scheduler` was called on it. -/
  | scheduled (pre : Kernel) (res : Kernel × Dispatch)
  /-- A store through a NULL `g_actual_task_sp`. -/
  | fault
  deriving DecidableEq, Repr

/-- Function `OSEK_ActivateTask` (lines 160-172). -/
def OSEK_ActivateTask (k : Kernel) (task_name_sp : Handle) : Outcome :=
  if task_name_sp = .null then .error k
  else
    match k.g_actual_task_sp with
    | none => .fault
    | some c =>
      let k1 := store k (.node c) .READY
      let k2 := store k1 task_name_sp .READY
      .scheduled k2 (OSEK_Scheduler k2)

/-- Function `OSEK_TerminateTask` (lines 180-191). -/
def OSEK_TerminateTask (k : Kernel) : Outcome :=
  match k.g_actual_task_sp with
  | none => .error k
  | some c =>
    let k1 := store k (.node c) .SUSPENDED
    .scheduled k1 (OSEK_Scheduler k1)

/-- Function `OSEK_ChainTask` (lines 199-211). -/
def OSEK_ChainTask (k : Kernel) (task_name_sp : Handle) : Outcome :=
  if task_name_sp = .null then .error k
  else
    match k.g_actual_task_sp with
    | none => .fault
    | some c =>
      let k1 := store k (.node c) .SUSPENDED
      let k2 := store k1 task_name_sp .READY
      .scheduled k2 (OSEK_Scheduler k2)

/-! ## Control flow: entry procedures running on the dispatcher's stack -/

/-- Where control is. -/
inductive Control
  /-- Inside `OSEK_Init`: the live entry-procedure frames, innermost first, each
  with the calls it still has to make.  With no frame left every call has
  returned and control is back in `main` behind `OSEK_Init()`. -/
  | inTasks (frames : List Body)
  /-- The dispatcher jumped back to the boundary saved by `OSEK_Init`. -/
  | restored
  /-- A NULL or wild `g_actual_task_sp` was dereferenced. -/
  | fault
  deriving DecidableEq, Repr

/-- The globals, the control state and the entry procedures called so far (list
positions, oldest first). -/
structure Machine where
  os : Kernel
  ctl : Control
  invoked : List Nat
  deriving DecidableEq, Repr

/-- Control flow after `OSEK_Scheduler` decided `res.2`, with `frames` the frames
live at its call. -/
def enter (res : Kernel × Dispatch) (frames : List Body) (invoked : List Nat) : Machine :=
  match res.2 with
  | .run i body => ⟨res.1, .inTasks (body :: frames), invoked ++ [i]⟩
  | .missingEntry _ => ⟨res.1, .inTasks frames, invoked⟩
  | .keep => ⟨res.1, .inTasks frames, invoked⟩
  | .restore => ⟨res.1, .restored, invoked⟩
  | .wild => ⟨res.1, .fault, invoked⟩

/-- Function `OSEK_Init` (lines 28-44): the boundary is captured and
`OSEK_Scheduler` is called, from `main`, with no entry procedure live. -/
def OSEK_Init (k : Kernel) : Machine :=
  enter (OSEK_Scheduler k) [] []

/-- The life-cycle call `c` made on the globals `k`. -/
def exec (k : Kernel) : Call → Outcome
  | .ActivateTask h => OSEK_ActivateTask k h
  | .TerminateTask => OSEK_TerminateTask k
  | .ChainTask h => OSEK_ChainTask k h

/-- One step of the innermost live entry procedure: its next call, or its return
(through the `OSEK_Scheduler` and life-cycle call that invoked it) when it has
no call left.  No step when control has left the tasks. -/
def step (m : Machine) : Option Machine :=
  match m.ctl with
  | .inTasks [] => none
  | .inTasks ([] :: frames) => some { m with ctl := .inTasks frames }
  | .inTasks ((c :: rest) :: frames) =>
    match exec m.os c with
    | .error k => some { m with os := k, ctl := .inTasks (rest :: frames) }
    | .scheduled _ res => some (enter res (rest :: frames) m.invoked)
    | .fault => some { m with ctl := .fault }
  | .restored => none
  | .fault => none

/-- Run `n` steps (fewer when control leaves the tasks earlier). -/
def run : Nat → Machine → Machine
  | 0, m => m
  | n + 1, m =>
    match step m with
    | none => m
    | some m1 => run n m1

/-! ## The program of cmsis_button_toggle_led.c -/

/-- Body of `task_a`: `OSEK_ActivateTask(task_b_ptr); OSEK_TerminateTask();`. -/
def task_a (task_b_ptr : Handle) : Body := [.ActivateTask task_b_ptr, .TerminateTask]

/-- Body of `task_b`: `OSEK_ChainTask(task_c_ptr);`. -/
def task_b (task_c_ptr : Handle) : Body := [.ChainTask task_c_ptr]

/-- Body of `task_c`: `OSEK_TerminateTask();`. -/
def task_c : Body := [.TerminateTask]

/-- The three `OSEK_CreateTask` calls of `main` (lines 119-121) with priorities
`pA`, `pB`, `pC` (1, 3, 5 in the source).  The bodies read the global pointers
`task_b_ptr` and `task_c_ptr`, which hold what the second and third call
return: the nodes at positions 1 and 2. -/
def mainTasks (pA pB pC : Nat) : List CreateArgs :=
  [ ⟨some (task_a (.node 1)), pA, true⟩,
    ⟨some (task_b (.node 2)), pB, false⟩,
    ⟨some task_c, pC, false⟩ ]

/-- Function `main` up to and including the call `OSEK_Init()`. -/
def main (pA pB pC : Nat) : Machine :=
  OSEK_Init (createAll Kernel.reset (mainTasks pA pB pC))

/-! ## Predicates used in the statements -/

/-- Number of nodes of the list in state RUNNING. -/
def runningCount (k : Kernel) : Nat :=
  (k.g_head_task_sp.filter (fun t => t.state_e = .RUNNING)).length

/-- The states of the nodes of the list, in list order. -/
def states (k : Kernel) : List OSEK_TaskState_t :=
  k.g_head_task_sp.map (fun t => t.state_e)

/-- The decision installed a candidate (lines 75-79 were executed). -/
def Dispatch.installs : Dispatch → Bool
  | .run _ _ => true
  | .missingEntry _ => true
  | _ => false

/-- The decision called an entry procedure. -/
def Dispatch.invokes : Dispatch → Bool
  | .run _ _ => true
  | _ => false

/-! ## Properties and example states used in the statements -/

/-- The node `t` at position `i` is READY, no READY node of the list has a
greater priority, and every READY node of the same priority sits at position
`i` or later. -/
def FirstMaxReady (l : List OSEK_Task_t) (i : Nat) (t : OSEK_Task_t) : Prop :=
  l[i]? = some t ∧ t.state_e = .READY ∧
  (∀ (j : Nat) (u : OSEK_Task_t), l[j]? = some u → u.state_e = .READY →
    u.priority_u8 ≤ t.priority_u8) ∧
  (∀ (j : Nat) (u : OSEK_Task_t), l[j]? = some u → u.state_e = .READY →
    u.priority_u8 = t.priority_u8 → i ≤ j)

/-- Four linked nodes: priorities 1, 4, 4, 9; the first three READY, the last
SUSPENDED; the third is the current task. -/
def tieKernel : Kernel :=
  ⟨[⟨1, true, .READY, none⟩, ⟨4, true, .READY, some []⟩, ⟨4, true, .READY, none⟩,
    ⟨9, false, .SUSPENDED, none⟩], [], some 2⟩

/-- No node of the list is RUNNING. -/
def NoRunning (l : List OSEK_Task_t) : Prop :=
  ∀ (j : Nat) (u : OSEK_Task_t), l[j]? = some u → u.state_e ≠ .RUNNING

/-- Every RUNNING node of the list is the one `g_actual_task_sp` points to. -/
def RunningIsCurrent (k : Kernel) : Prop :=
  ∀ (j : Nat) (u : OSEK_Task_t), k.g_head_task_sp[j]? = some u → u.state_e = .RUNNING →
    k.g_actual_task_sp = some j

/-- The globals a life-cycle call hands to `OSEK_Scheduler`, when it calls it. -/
def Outcome.handed : Outcome → Option Kernel
  | .scheduled pre _ => some pre
  | _ => none

/-- The globals after a life-cycle call and the dispatcher decision it led to, if
control got that far. -/
def Outcome.after : Outcome → Option Kernel
  | .error k => some k
  | .scheduled _ res => some res.1
  | .fault => none

/-- The machine at the end of the program of `main`: every call has returned,
`task_a` is READY, `task_b` and `task_c` are SUSPENDED, `task_c` is current. -/
def mainEnd (pA pB pC : Nat) : Machine :=
  ⟨⟨[⟨pA, true, .READY, some (task_a (.node 1))⟩,
     ⟨pB, false, .SUSPENDED, some (task_b (.node 2))⟩,
     ⟨pC, false, .SUSPENDED, some task_c⟩], [], some 2⟩, .inTasks [], [0, 1, 2]⟩

/-- Two tasks: the first (priority 1, autostart) activates the second twice, the
second (priority 3) terminates itself. -/
def reactivateTasks : List CreateArgs :=
  [ ⟨some [.ActivateTask (.node 1), .ActivateTask (.node 1)], 1, true⟩,
    ⟨some [.TerminateTask], 3, false⟩ ]

/-- Two tasks: the first (priority 2, autostart) activates the second and then
terminates, the second (priority 1) makes no call. -/
def demoteTasks : List CreateArgs :=
  [ ⟨some [.ActivateTask (.node 1), .TerminateTask], 2, true⟩, ⟨some [], 1, false⟩ ]


/-- The node the decision installed as current task, if it installed one. -/
def Dispatch.target : Dispatch → Option Nat
  | .run i _ => some i
  | .missingEntry i => some i
  | _ => none

/-- The task pointer a life-cycle call is given (`OSEK_TerminateTask` takes
none). -/
def Call.target : Call → Handle
  | .ActivateTask h => h
  | .TerminateTask => .null
  | .ChainTask h => h

/-- The fields of a descriptor that only `OSEK_CreateTask` writes: priority,
autostart flag and entry pointer. -/
def fixedFields (t : OSEK_Task_t) : Nat × Bool × Option Body :=
  (t.priority_u8, t.autostart_b, t.task_addr_pf)

/-- Priority of the node at position `i` (0 when the list has no such node). -/
def priorityAt (k : Kernel) (i : Nat) : Nat :=
  match k.g_head_task_sp[i]? with
  | some t => t.priority_u8
  | none => 0

/-- Two linked nodes: the first READY with priority 2 and a NULL entry pointer,
the second SUSPENDED with priority 1; no current task. -/
def nullEntryKernel : Kernel :=
  ⟨[⟨2, true, .READY, none⟩, ⟨1, false, .SUSPENDED, some []⟩], [], none⟩

/-- Following the spec's words for chain ("terminate-then-activate collapsed
into one call"): the globals `OSEK_TerminateTask` hands to the dispatcher,
passed on to `OSEK_ActivateTask` on `h`, and the globals that call hands to the
dispatcher in turn. -/
def terminateThenActivate (k : Kernel) (h : Handle) : Option Kernel :=
  match (OSEK_TerminateTask k).handed with
  | some k1 => (OSEK_ActivateTask k1 h).handed
  | none => none

/-- The current-task pointer, when not NULL, points to a node of the list. -/
def CurrentLinked (k : Kernel) : Prop :=
  ∀ c : Nat, k.g_actual_task_sp = some c → c < k.g_head_task_sp.length

/-- The node the next step of the machine installs as current task: the step
must be a life-cycle call that reaches `OSEK_Scheduler`, and the dispatcher
must install its candidate. -/
def Machine.installs (m : Machine) : Option Nat :=
  match m.ctl with
  | .inTasks ((c :: _) :: _) =>
    match exec m.os c with
    | .scheduled _ res => res.2.target
    | _ => none
  | _ => none

/-- The nodes installed as current task by the first `n` steps from `m`, oldest
first. -/
def installedBy : Nat → Machine → List Nat
  | 0, _ => []
  | n + 1, m =>
    match step m with
    | none => []
    | some m1 => m.installs.toList ++ installedBy n m1

/-- Every node installed as current task in an execution: by the dispatcher call
of `OSEK_Init` on the globals `k`, then by the first `n` steps of the entry
procedures. -/
def dispatchHistory (k : Kernel) (n : Nat) : List Nat :=
  (OSEK_Scheduler k).2.target.toList ++ installedBy n (OSEK_Init k)

/-! ## The search loop -/

/-- Loop invariant of the search: a result is either the candidate the loop
started with (and then no READY node of the remaining list beats the running
maximum), or a READY node of the remaining list that beats the running
maximum, is beaten by no READY node and strictly beats every READY node
before it. -/
theorem scan_spec (l : List OSEK_Task_t) :
    ∀ (pos : Nat) (best : Option (Nat × OSEK_Task_t)) (mx i : Nat) (t : OSEK_Task_t),
      scan l pos best mx = some (i, t) →
      (best = some (i, t) ∧
        ∀ (j : Nat) (u : OSEK_Task_t), l[j]? = some u → u.state_e = .READY → u.priority_u8 ≤ mx) ∨
      (∃ j, i = pos + j ∧ l[j]? = some t ∧ t.state_e = .READY ∧ mx < t.priority_u8 ∧
        (∀ (j1 : Nat) (u : OSEK_Task_t), l[j1]? = some u → u.state_e = .READY → u.priority_u8 ≤ t.priority_u8) ∧
        (∀ (j1 : Nat) (u : OSEK_Task_t), j1 < j → l[j1]? = some u → u.state_e = .READY →
          u.priority_u8 < t.priority_u8)) := by
  induction l with
  | nil =>
    intro pos best mx i t h
    left
    exact ⟨by simpa [scan] using h, by simp⟩
  | cons a as ih =>
    intro pos best mx i t h
    by_cases hr : a.state_e = .READY
    · by_cases hp : a.priority_u8 > mx
      · have h1 : scan as (pos + 1) (some (pos, a)) a.priority_u8 = some (i, t) := by
          simpa [scan, hr, hp] using h
        rcases ih _ _ _ _ _ h1 with ⟨hb, hle⟩ | ⟨j, hi, hj, hrt, hlt, hall, hbefore⟩
        · have hia : pos = i ∧ a = t := by simpa using hb
          obtain ⟨rfl, rfl⟩ := hia
          right
          refine ⟨0, rfl, by simp, hr, hp, ?_, ?_⟩
          · intro j1 u hu hur
            cases j1 with
            | zero =>
              have : a = u := by simpa using hu
              subst this
              exact le_rfl
            | succ n => exact hle n u (by simpa using hu) hur
          · intro j1 u hj1
            exact absurd hj1 (Nat.not_lt_zero _)
        · right
          refine ⟨j + 1, by omega, by simpa using hj, hrt, by omega, ?_, ?_⟩
          · intro j1 u hu hur
            cases j1 with
            | zero =>
              have : a = u := by simpa using hu
              subst this
              omega
            | succ n => exact hall n u (by simpa using hu) hur
          · intro j1 u hj1 hu hur
            cases j1 with
            | zero =>
              have : a = u := by simpa using hu
              subst this
              exact hlt
            | succ n => exact hbefore n u (by omega) (by simpa using hu) hur
      · have h1 : scan as (pos + 1) best mx = some (i, t) := by
          simpa [scan, hr, hp] using h
        rcases ih _ _ _ _ _ h1 with ⟨hb, hle⟩ | ⟨j, hi, hj, hrt, hlt, hall, hbefore⟩
        · left
          refine ⟨hb, ?_⟩
          intro j1 u hu hur
          cases j1 with
          | zero =>
            have : a = u := by simpa using hu
            subst this
            omega
          | succ n => exact hle n u (by simpa using hu) hur
        · right
          refine ⟨j + 1, by omega, by simpa using hj, hrt, hlt, ?_, ?_⟩
          · intro j1 u hu hur
            cases j1 with
            | zero =>
              have : a = u := by simpa using hu
              subst this
              omega
            | succ n => exact hall n u (by simpa using hu) hur
          · intro j1 u hj1 hu hur
            cases j1 with
            | zero =>
              have : a = u := by simpa using hu
              subst this
              omega
            | succ n => exact hbefore n u (by omega) (by simpa using hu) hur
    · have h1 : scan as (pos + 1) best mx = some (i, t) := by
        simpa [scan, hr] using h
      rcases ih _ _ _ _ _ h1 with ⟨hb, hle⟩ | ⟨j, hi, hj, hrt, hlt, hall, hbefore⟩
      · left
        refine ⟨hb, ?_⟩
        intro j1 u hu hur
        cases j1 with
        | zero =>
          have : a = u := by simpa using hu
          subst this
          exact absurd hur hr
        | succ n => exact hle n u (by simpa using hu) hur
      · right
        refine ⟨j + 1, by omega, by simpa using hj, hrt, hlt, ?_, ?_⟩
        · intro j1 u hu hur
          cases j1 with
          | zero =>
            have : a = u := by simpa using hu
            subst this
            exact absurd hur hr
          | succ n => exact hall n u (by simpa using hu) hur
        · intro j1 u hj1 hu hur
          cases j1 with
          | zero =>
            have : a = u := by simpa using hu
            subst this
            exact absurd hur hr
          | succ n => exact hbefore n u (by omega) (by simpa using hu) hur

/-- What the search of `OSEK_Scheduler` returns when it returns a node. -/
theorem candidate_spec (k : Kernel) (i : Nat) (t : OSEK_Task_t)
    (h : candidate k = some (i, t)) :
    k.g_head_task_sp[i]? = some t ∧ t.state_e = .READY ∧ 0 < t.priority_u8 ∧
    (∀ (j : Nat) (u : OSEK_Task_t), k.g_head_task_sp[j]? = some u → u.state_e = .READY →
      u.priority_u8 ≤ t.priority_u8) ∧
    (∀ (j : Nat) (u : OSEK_Task_t), j < i → k.g_head_task_sp[j]? = some u → u.state_e = .READY →
      u.priority_u8 < t.priority_u8) := by
  rcases scan_spec _ _ _ _ _ _ h with ⟨hb, _⟩ | ⟨j, hi, hj, hrt, hlt, hall, hbefore⟩
  · exact absurd hb (by simp)
  · have hij : i = j := by omega
    subst hij
    exact ⟨hj, hrt, hlt, hall, hbefore⟩

/-! ## Stores into the list -/

theorem setState_length (st : OSEK_TaskState_t) (l : List OSEK_Task_t) :
    ∀ i : Nat, (setState st i l).length = l.length := by
  induction l with
  | nil => intro i; simp [setState]
  | cons a as ih =>
    intro i
    cases i with
    | zero => simp [setState]
    | succ n => simp [setState, ih n]

theorem setState_getElem?_self (st : OSEK_TaskState_t) (l : List OSEK_Task_t) :
    ∀ (i : Nat) (t : OSEK_Task_t), l[i]? = some t →
      (setState st i l)[i]? = some { t with state_e := st } := by
  induction l with
  | nil => intro i t h; simp at h
  | cons a as ih =>
    intro i t h
    cases i with
    | zero =>
      have : a = t := by simpa using h
      subst this
      simp [setState]
    | succ n =>
      have h1 : as[n]? = some t := by simpa using h
      simpa [setState] using ih n t h1

theorem setState_getElem?_ne (st : OSEK_TaskState_t) (l : List OSEK_Task_t) :
    ∀ (i j : Nat), i ≠ j → (setState st i l)[j]? = l[j]? := by
  induction l with
  | nil => intro i j _; simp [setState]
  | cons a as ih =>
    intro i j hij
    cases i with
    | zero =>
      cases j with
      | zero => exact absurd rfl hij
      | succ m => simp [setState]
    | succ n =>
      cases j with
      | zero => simp [setState]
      | succ m =>
        have : n ≠ m := fun h => hij (by rw [h])
        simpa [setState] using ih n m this

/-- A store into the list changes at most the state of the node it addresses. -/
theorem setState_getElem? (st : OSEK_TaskState_t) (l : List OSEK_Task_t) (i j : Nat) :
    (setState st i l)[j]? =
      if i = j then (l[j]?).map (fun t => { t with state_e := st }) else l[j]? := by
  by_cases hij : i = j
  · subst hij
    cases h : l[i]? with
    | none =>
      have hlen : l.length ≤ i := List.getElem?_eq_none_iff.mp h
      have : (setState st i l)[i]? = none :=
        List.getElem?_eq_none_iff.mpr (by rw [setState_length]; exact hlen)
      simp [this]
    | some t => simp [setState_getElem?_self st l i t h]
  · simp [hij, setState_getElem?_ne st l i j hij]

/-! ## Claims about the dispatcher -/

/-- C1: whatever the list and the current task, a candidate selected by the
search of `OSEK_Scheduler` is READY, has the maximal priority among the READY
nodes, and is the earliest-linked READY node with that priority. -/
theorem scheduler_candidate_first_max_ready (k : Kernel) (i : Nat) (t : OSEK_Task_t)
    (h : candidate k = some (i, t)) : FirstMaxReady k.g_head_task_sp i t := by
  obtain ⟨hi, hr, _, hall, hbefore⟩ := candidate_spec k i t h
  refine ⟨hi, hr, hall, ?_⟩
  intro j u hu hur hp
  by_contra hlt
  have := hbefore j u (by omega) hu hur
  omega

/-- Instance of C1: of the two READY nodes of priority 4 the search selects the
one linked first. -/
theorem scheduler_candidate_first_max_ready_witness :
    candidate tieKernel = some (1, ⟨4, true, .READY, some []⟩) ∧
    FirstMaxReady tieKernel.g_head_task_sp 1 ⟨4, true, .READY, some []⟩ :=
  ⟨rfl, scheduler_candidate_first_max_ready tieKernel 1 ⟨4, true, .READY, some []⟩ rfl⟩

/-- C2: `OSEK_Scheduler` installs a candidate (makes it the current task and
marks it RUNNING) exactly when the search found one and there is no current
task or the candidate's priority is strictly greater than the current task's;
when it installs, the new globals are the old ones with the candidate current
and RUNNING; when the candidate's priority is not greater than the current
task's, the globals are unchanged and the dispatcher just returns (no entry
procedure is called). -/
theorem scheduler_installs_iff (k : Kernel) :
    ((OSEK_Scheduler k).2.installs = true ↔
      ∃ (i : Nat) (t : OSEK_Task_t), candidate k = some (i, t) ∧
        (k.g_actual_task_sp = none ∨
          ∃ (c : Nat) (tc : OSEK_Task_t), k.g_actual_task_sp = some c ∧
            k.g_head_task_sp[c]? = some tc ∧ tc.priority_u8 < t.priority_u8)) ∧
    (∀ (i : Nat) (t : OSEK_Task_t), candidate k = some (i, t) →
      (OSEK_Scheduler k).2.installs = true →
      (OSEK_Scheduler k).1 =
          { k with g_actual_task_sp := some i
                   g_head_task_sp := setState .RUNNING i k.g_head_task_sp } ∧
        (OSEK_Scheduler k).1.g_head_task_sp[i]? = some { t with state_e := .RUNNING }) ∧
    (∀ (i c : Nat) (t tc : OSEK_Task_t), candidate k = some (i, t) →
      k.g_actual_task_sp = some c → k.g_head_task_sp[c]? = some tc →
      t.priority_u8 ≤ tc.priority_u8 →
      OSEK_Scheduler k = (k, .keep) ∧ (OSEK_Scheduler k).2.invokes = false) := by
  refine ⟨?_, ?_, ?_⟩
  · cases hc : candidate k with
    | none => simp [OSEK_Scheduler, hc, Dispatch.installs]
    | some p =>
      obtain ⟨i, t⟩ := p
      cases ha : k.g_actual_task_sp with
      | none =>
        cases he : t.task_addr_pf <;>
          simp [OSEK_Scheduler, hc, ha, install, he, Dispatch.installs]
      | some c =>
        cases hg : k.g_head_task_sp[c]? with
        | none => simp [OSEK_Scheduler, hc, ha, hg, Dispatch.installs]
        | some tc =>
          by_cases hp : t.priority_u8 > tc.priority_u8
          · cases he : t.task_addr_pf <;>
              simp [OSEK_Scheduler, hc, ha, hg, hp, install, he, Dispatch.installs] <;>
              exact ⟨i, t, ⟨rfl, rfl⟩, hp⟩
          · simp [OSEK_Scheduler, hc, ha, hg, hp, Dispatch.installs]
            omega
  · intro i t hc hi
    have hget := (candidate_spec k i t hc).1
    have hpost : (OSEK_Scheduler k).1 =
        { k with g_actual_task_sp := some i
                 g_head_task_sp := setState .RUNNING i k.g_head_task_sp } := by
      cases ha : k.g_actual_task_sp with
      | none =>
        cases he : t.task_addr_pf <;> simp [OSEK_Scheduler, hc, ha, install, he]
      | some c =>
        cases hg : k.g_head_task_sp[c]? with
        | none => simp [OSEK_Scheduler, hc, ha, hg, Dispatch.installs] at hi
        | some tc =>
          by_cases hp : t.priority_u8 > tc.priority_u8
          · cases he : t.task_addr_pf <;>
              simp [OSEK_Scheduler, hc, ha, hg, hp, install, he]
          · simp [OSEK_Scheduler, hc, ha, hg, hp, Dispatch.installs] at hi
    refine ⟨hpost, ?_⟩
    rw [hpost]
    exact setState_getElem?_self .RUNNING k.g_head_task_sp i t hget
  · intro i c t tc hc ha hg hp
    have hnp : ¬ t.priority_u8 > tc.priority_u8 := by omega
    simp [OSEK_Scheduler, hc, ha, hg, hnp, Dispatch.invokes]

/-- Instance of C2 on `tieKernel`: the candidate (priority 4) does not beat the
current task (priority 4), so nothing changes and nothing is called. -/
theorem scheduler_installs_iff_witness :
    OSEK_Scheduler tieKernel = (tieKernel, .keep) ∧
    (OSEK_Scheduler tieKernel).2.invokes = false :=
  (scheduler_installs_iff tieKernel).2.2 1 2 ⟨4, true, .READY, some []⟩
    ⟨4, true, .READY, none⟩ rfl rfl rfl (by decide)

/-- C3, evaluated at a failing input: after `OSEK_CreateTask(f, 0, true)` the
list holds one READY task (of priority 0), yet the search of `OSEK_Scheduler`
finds no candidate and `OSEK_Init` ends on the boundary-restore path without
calling the task. -/
theorem scheduler_restores_despite_ready_task :
    states (createAll Kernel.reset [⟨some [.TerminateTask], 0, true⟩]) = [.READY] ∧
    candidate (createAll Kernel.reset [⟨some [.TerminateTask], 0, true⟩]) = none ∧
    OSEK_Init (createAll Kernel.reset [⟨some [.TerminateTask], 0, true⟩]) =
      ⟨⟨[⟨0, true, .READY, some [.TerminateTask]⟩], [], none⟩, .restored, []⟩ :=
  ⟨rfl, rfl, rfl⟩

/-! ## Claims about OSEK_CreateTask -/

/-- The three ways the linking loop can end, by the length of the list it walks:
the new node is appended (no diagnostic), the walk stops on the last node
without linking (diagnostic), or it stops before the last node (neither). -/
theorem linkLoop_spec (new_task_sp : OSEK_Task_t) :
    ∀ (n : Nat) (l : List OSEK_Task_t), l ≠ [] →
      (l.length ≤ n → linkLoop new_task_sp n l = (l ++ [new_task_sp], true, false)) ∧
      (l.length = n + 1 → linkLoop new_task_sp n l = (l, false, true)) ∧
      (n + 1 < l.length → linkLoop new_task_sp n l = (l, false, false)) := by
  intro n
  induction n with
  | zero =>
    intro l hl
    cases l with
    | nil => exact absurd rfl hl
    | cons t ts =>
      cases ts with
      | nil => simp [linkLoop]
      | cons u us => simp [linkLoop]
  | succ n ih =>
    intro l hl
    cases l with
    | nil => exact absurd rfl hl
    | cons t ts =>
      cases ts with
      | nil => simp [linkLoop]
      | cons u us =>
        obtain ⟨h1, h2, h3⟩ := ih (u :: us) (by simp)
        refine ⟨?_, ?_, ?_⟩
        · intro h
          have := h1 (by simpa using h)
          simp [linkLoop, this]
        · intro h
          have := h2 (by simpa using h)
          simp [linkLoop, this]
        · intro h
          have := h3 (by simpa using h)
          simp [linkLoop, this]

theorem createTask_of_lt (k : Kernel) (f : Option Body) (p : Nat) (a : Bool)
    (h : k.g_head_task_sp.length < MAX_TASKS) :
    OSEK_CreateTask k f p a =
      ⟨{ k with g_head_task_sp := k.g_head_task_sp ++ [newTask f p a] },
        .node k.g_head_task_sp.length, false⟩ := by
  cases hl : k.g_head_task_sp with
  | nil => simp [OSEK_CreateTask, hl, newTask]
  | cons t ts =>
    have hlen : (t :: ts).length ≤ MAX_TASKS - 1 := by
      rw [hl] at h
      simp only [MAX_TASKS] at h ⊢
      omega
    have := (linkLoop_spec (newTask f p a) (MAX_TASKS - 1) (t :: ts) (by simp)).1 hlen
    simp only [newTask] at this
    simp [OSEK_CreateTask, hl, this, newTask]

theorem createTask_of_eq (k : Kernel) (f : Option Body) (p : Nat) (a : Bool)
    (h : k.g_head_task_sp.length = MAX_TASKS) :
    OSEK_CreateTask k f p a =
      ⟨{ k with unlinked := k.unlinked ++ [newTask f p a] },
        .loose k.unlinked.length, true⟩ := by
  cases hl : k.g_head_task_sp with
  | nil => rw [hl] at h; simp [MAX_TASKS] at h
  | cons t ts =>
    have hlen : (t :: ts).length = (MAX_TASKS - 1) + 1 := by
      rw [hl] at h
      simp only [MAX_TASKS] at h ⊢
      omega
    have := (linkLoop_spec (newTask f p a) (MAX_TASKS - 1) (t :: ts) (by simp)).2.1 hlen
    simp only [newTask] at this
    simp [OSEK_CreateTask, hl, this, newTask]

/-- After any sequence of calls from the reset state the list holds as many
nodes as calls were made, capped at `MAX_TASKS`. -/
theorem createAll_length (cs : List CreateArgs) :
    ∀ k : Kernel, k.g_head_task_sp.length ≤ MAX_TASKS →
      (createAll k cs).g_head_task_sp.length =
        min (k.g_head_task_sp.length + cs.length) MAX_TASKS := by
  induction cs with
  | nil => intro k hk; simp [createAll]; omega
  | cons a as ih =>
    intro k hk
    rcases Nat.lt_or_ge k.g_head_task_sp.length MAX_TASKS with hlt | hge
    · have hc := createTask_of_lt k a.task_name_fp a.task_priority_u8 a.task_autostart_b hlt
      have hlen : (OSEK_CreateTask k a.task_name_fp a.task_priority_u8
          a.task_autostart_b).os.g_head_task_sp.length = k.g_head_task_sp.length + 1 := by
        rw [hc]; simp
      rw [createAll, ih _ (by rw [hlen]; omega), hlen]
      simp only [List.length_cons]
      omega
    · have heq : k.g_head_task_sp.length = MAX_TASKS := by omega
      have hc := createTask_of_eq k a.task_name_fp a.task_priority_u8 a.task_autostart_b heq
      have hlen : (OSEK_CreateTask k a.task_name_fp a.task_priority_u8
          a.task_autostart_b).os.g_head_task_sp.length = k.g_head_task_sp.length := by
        rw [hc]
      rw [createAll, ih _ (by rw [hlen]; omega), hlen]
      simp only [List.length_cons]
      omega

/-- C5: after any sequence of `OSEK_CreateTask` calls from the reset state the
list holds `min (number of calls) MAX_TASKS` nodes, so never more than
`MAX_TASKS` (= 10); a further call made when it holds `MAX_TASKS` nodes leaves
the list and the current task unchanged and prints the "Max. number of Tasks
reached!" diagnostic; a further call made when it holds fewer nodes does not
print it. -/
theorem createTask_capacity (cs : List CreateArgs) (a : CreateArgs) :
    MAX_TASKS = 10 ∧
    (createAll Kernel.reset cs).g_head_task_sp.length = min cs.length MAX_TASKS ∧
    (createAll Kernel.reset cs).g_head_task_sp.length ≤ MAX_TASKS ∧
    ((createAll Kernel.reset cs).g_head_task_sp.length = MAX_TASKS →
      (OSEK_CreateTask (createAll Kernel.reset cs) a.task_name_fp a.task_priority_u8
          a.task_autostart_b).os.g_head_task_sp = (createAll Kernel.reset cs).g_head_task_sp ∧
      (OSEK_CreateTask (createAll Kernel.reset cs) a.task_name_fp a.task_priority_u8
          a.task_autostart_b).os.g_actual_task_sp =
        (createAll Kernel.reset cs).g_actual_task_sp ∧
      (OSEK_CreateTask (createAll Kernel.reset cs) a.task_name_fp a.task_priority_u8
          a.task_autostart_b).maxReached = true) ∧
    ((createAll Kernel.reset cs).g_head_task_sp.length < MAX_TASKS →
      (OSEK_CreateTask (createAll Kernel.reset cs) a.task_name_fp a.task_priority_u8
          a.task_autostart_b).maxReached = false) := by
  have hlen := createAll_length cs Kernel.reset (by simp [Kernel.reset])
  have hlen2 : (createAll Kernel.reset cs).g_head_task_sp.length = min cs.length MAX_TASKS := by
    simpa [Kernel.reset] using hlen
  refine ⟨rfl, hlen2, by rw [hlen2]; exact Nat.min_le_right _ _, ?_, ?_⟩
  · intro h
    rw [createTask_of_eq _ _ _ _ h]
    exact ⟨rfl, rfl, rfl⟩
  · intro h
    rw [createTask_of_lt _ _ _ _ h]

/-- Instance of C5: the eleventh call after ten successful ones changes neither
the list nor the current task and prints the diagnostic. -/
theorem createTask_capacity_witness :
    (createAll Kernel.reset (List.replicate 10 ⟨some task_c, 1, true⟩)).g_head_task_sp.length =
      MAX_TASKS ∧
    (OSEK_CreateTask (createAll Kernel.reset (List.replicate 10 ⟨some task_c, 1, true⟩))
        none 7 true).os.g_head_task_sp =
      (createAll Kernel.reset (List.replicate 10 ⟨some task_c, 1, true⟩)).g_head_task_sp ∧
    (OSEK_CreateTask (createAll Kernel.reset (List.replicate 10 ⟨some task_c, 1, true⟩))
        none 7 true).os.g_actual_task_sp =
      (createAll Kernel.reset (List.replicate 10 ⟨some task_c, 1, true⟩)).g_actual_task_sp ∧
    (OSEK_CreateTask (createAll Kernel.reset (List.replicate 10 ⟨some task_c, 1, true⟩))
        none 7 true).maxReached = true :=
  ⟨rfl,
    (createTask_capacity (List.replicate 10 ⟨some task_c, 1, true⟩) ⟨none, 7, true⟩).2.2.2.1 rfl⟩

/-- C6: on a list of fewer than `MAX_TASKS` nodes `OSEK_CreateTask` appends
exactly one node at the end, carrying the given entry, priority and autostart
flag, in state READY when autostart is set and SUSPENDED otherwise; the nodes
already linked, their order, the unlinked descriptors and the current task are
unchanged, and the returned pointer is the new node. -/
theorem createTask_appends (k : Kernel) (task_name_fp : Option Body) (task_priority_u8 : Nat)
    (task_autostart_b : Bool) (h : k.g_head_task_sp.length < MAX_TASKS) :
    (OSEK_CreateTask k task_name_fp task_priority_u8 task_autostart_b).os.g_head_task_sp =
      k.g_head_task_sp ++
        [{ priority_u8 := task_priority_u8
           autostart_b := task_autostart_b
           state_e := if task_autostart_b = true then .READY else .SUSPENDED
           task_addr_pf := task_name_fp }] ∧
    (OSEK_CreateTask k task_name_fp task_priority_u8 task_autostart_b).os.unlinked =
      k.unlinked ∧
    (OSEK_CreateTask k task_name_fp task_priority_u8 task_autostart_b).os.g_actual_task_sp =
      k.g_actual_task_sp ∧
    (OSEK_CreateTask k task_name_fp task_priority_u8 task_autostart_b).handle =
      .node k.g_head_task_sp.length := by
  rw [createTask_of_lt k task_name_fp task_priority_u8 task_autostart_b h]
  exact ⟨rfl, rfl, rfl, rfl⟩

/-- Instance of C6: a non-autostart task of priority 6 created on `tieKernel`
(four nodes) becomes its fifth node, SUSPENDED. -/
theorem createTask_appends_witness :
    tieKernel.g_head_task_sp.length < MAX_TASKS ∧
    (OSEK_CreateTask tieKernel (some task_c) 6 false).os.g_head_task_sp =
      tieKernel.g_head_task_sp ++ [⟨6, false, .SUSPENDED, some task_c⟩] :=
  ⟨by decide, (createTask_appends tieKernel (some task_c) 6 false (by decide)).1⟩

/-! ## At most one RUNNING task -/

theorem filter_running_of_noRunning (l : List OSEK_Task_t) (h : NoRunning l) :
    (l.filter (fun t => t.state_e = .RUNNING)).length = 0 := by
  induction l with
  | nil => simp
  | cons a as ih =>
    have ha : a.state_e ≠ .RUNNING := h 0 a (by simp)
    have has : NoRunning as := fun j u hu => h (j + 1) u (by simpa using hu)
    simp [List.filter_cons, ha, ih has]

theorem filter_running_le_one (l : List OSEK_Task_t) :
    ∀ (f : Nat → Nat) (c : Option Nat), Function.Injective f →
      (∀ (j : Nat) (u : OSEK_Task_t), l[j]? = some u → u.state_e = .RUNNING → c = some (f j)) →
      (l.filter (fun t => t.state_e = .RUNNING)).length ≤ 1 := by
  induction l with
  | nil => intro f c _ _; simp
  | cons a as ih =>
    intro f c hf h
    by_cases ha : a.state_e = .RUNNING
    · have hc : c = some (f 0) := h 0 a (by simp) ha
      have has : NoRunning as := by
        intro j u hu hur
        have := h (j + 1) u (by simpa using hu) hur
        rw [hc] at this
        have := hf (Option.some.inj this)
        omega
      simp [List.filter_cons, ha, filter_running_of_noRunning as has]
    · have := ih (fun j => f (j + 1)) c
        (fun x y hxy => by have := hf hxy; omega)
        (fun j u hu hur => h (j + 1) u (by simpa using hu) hur)
      simpa [List.filter_cons, ha] using this

theorem runningCount_le_one (k : Kernel) (h : RunningIsCurrent k) : runningCount k ≤ 1 :=
  filter_running_le_one k.g_head_task_sp id k.g_actual_task_sp (fun _ _ hxy => hxy) h

theorem runningCount_of_noRunning (k : Kernel) (h : NoRunning k.g_head_task_sp) :
    runningCount k = 0 :=
  filter_running_of_noRunning k.g_head_task_sp h

theorem runningIsCurrent_of_noRunning (k : Kernel) (h : NoRunning k.g_head_task_sp) :
    RunningIsCurrent k :=
  fun j u hu hur => absurd hur (h j u hu)

theorem noRunning_append_newTask (l : List OSEK_Task_t) (f : Option Body) (p : Nat) (a : Bool)
    (h : NoRunning l) : NoRunning (l ++ [newTask f p a]) := by
  intro j u hu
  rcases Nat.lt_or_ge j l.length with hlt | hge
  · rw [List.getElem?_append_left hlt] at hu
    exact h j u hu
  · rw [List.getElem?_append_right hge] at hu
    cases hj : j - l.length with
    | zero =>
      rw [hj] at hu
      have : newTask f p a = u := by simpa using hu
      subst this
      cases a <;> simp [newTask]
    | succ n =>
      rw [hj] at hu
      simp at hu

/-- `OSEK_CreateTask` never produces a RUNNING node. -/
theorem createTask_noRunning (k : Kernel) (f : Option Body) (p : Nat) (a : Bool)
    (h : NoRunning k.g_head_task_sp) :
    NoRunning (OSEK_CreateTask k f p a).os.g_head_task_sp := by
  cases hl : k.g_head_task_sp with
  | nil =>
    have := noRunning_append_newTask [] f p a (by intro j u hu; simp at hu)
    simpa [OSEK_CreateTask, hl, newTask] using this
  | cons t ts =>
    obtain ⟨h1, h2, h3⟩ := linkLoop_spec (newTask f p a) (MAX_TASKS - 1) (t :: ts) (by simp)
    have happ := noRunning_append_newTask (t :: ts) f p a (by rw [← hl]; exact h)
    have hsame : NoRunning (t :: ts) := by rw [← hl]; exact h
    rcases Nat.lt_trichotomy (t :: ts).length ((MAX_TASKS - 1) + 1) with hlt | heq | hgt
    · have := h1 (by omega)
      simpa [OSEK_CreateTask, hl, this] using happ
    · have := h2 heq
      simpa [OSEK_CreateTask, hl, this] using hsame
    · have := h3 hgt
      simpa [OSEK_CreateTask, hl, this] using hsame

theorem createAll_noRunning (cs : List CreateArgs) :
    ∀ k : Kernel, NoRunning k.g_head_task_sp → NoRunning (createAll k cs).g_head_task_sp := by
  induction cs with
  | nil => intro k h; simpa [createAll] using h
  | cons a as ih =>
    intro k h
    rw [createAll]
    exact ih _ (createTask_noRunning k _ _ _ h)

theorem setState_noRunning (st : OSEK_TaskState_t) (hst : st ≠ .RUNNING) (i : Nat)
    (l : List OSEK_Task_t) (h : NoRunning l) : NoRunning (setState st i l) := by
  intro j u hu
  rw [setState_getElem?] at hu
  by_cases hij : i = j
  · simp only [hij, if_true] at hu
    cases hl : l[j]? with
    | none => simp [hl] at hu
    | some t =>
      have : { t with state_e := st } = u := by simpa [hl] using hu
      subst this
      exact hst
  · simp only [hij, if_false] at hu
    exact h j u hu

/-- Taking the current task out of RUNNING leaves no RUNNING node. -/
theorem setState_current_noRunning (st : OSEK_TaskState_t) (hst : st ≠ .RUNNING) (k : Kernel)
    (c : Nat) (hc : k.g_actual_task_sp = some c) (h : RunningIsCurrent k) :
    NoRunning (setState st c k.g_head_task_sp) := by
  intro j u hu
  rw [setState_getElem?] at hu
  by_cases hij : c = j
  · simp only [hij, if_true] at hu
    cases hl : k.g_head_task_sp[j]? with
    | none => simp [hl] at hu
    | some t =>
      have : { t with state_e := st } = u := by simpa [hl] using hu
      subst this
      exact hst
  · simp only [hij, if_false] at hu
    intro hur
    have := h j u hu hur
    rw [hc] at this
    exact hij (Option.some.inj this)

theorem store_noRunning (k : Kernel) (h : Handle) (st : OSEK_TaskState_t)
    (hst : st ≠ .RUNNING) (hk : NoRunning k.g_head_task_sp) :
    NoRunning (store k h st).g_head_task_sp := by
  cases h with
  | null => exact hk
  | node i => exact setState_noRunning st hst i _ hk
  | loose i => exact hk

theorem install_runningIsCurrent (k : Kernel) (i : Nat) (t : OSEK_Task_t)
    (h : NoRunning k.g_head_task_sp) : RunningIsCurrent (install k i t).1 := by
  have key : RunningIsCurrent
      { k with g_actual_task_sp := some i
               g_head_task_sp := setState .RUNNING i k.g_head_task_sp } := by
    intro j u hu hur
    by_cases hij : i = j
    · simp [hij]
    · have hu1 : (setState .RUNNING i k.g_head_task_sp)[j]? = some u := hu
      rw [setState_getElem?_ne _ _ i j hij] at hu1
      exact absurd hur (h j u hu1)
  cases he : t.task_addr_pf <;> simpa [install, he] using key

/-- Called with no RUNNING node, `OSEK_Scheduler` leaves at most the node it
installs RUNNING. -/
theorem scheduler_runningIsCurrent (k : Kernel) (h : NoRunning k.g_head_task_sp) :
    RunningIsCurrent (OSEK_Scheduler k).1 := by
  have hk := runningIsCurrent_of_noRunning k h
  cases hc : candidate k with
  | none => simpa [OSEK_Scheduler, hc] using hk
  | some p =>
    obtain ⟨i, t⟩ := p
    cases ha : k.g_actual_task_sp with
    | none => simpa [OSEK_Scheduler, hc, ha] using install_runningIsCurrent k i t h
    | some c =>
      cases hg : k.g_head_task_sp[c]? with
      | none => simpa [OSEK_Scheduler, hc, ha, hg] using hk
      | some tc =>
        by_cases hp : t.priority_u8 > tc.priority_u8
        · simpa [OSEK_Scheduler, hc, ha, hg, hp] using install_runningIsCurrent k i t h
        · simpa [OSEK_Scheduler, hc, ha, hg, hp] using hk

theorem exec_handed_noRunning (k : Kernel) (c : Call) (h : RunningIsCurrent k)
    (pre : Kernel) (hpre : (exec k c).handed = some pre) : NoRunning pre.g_head_task_sp := by
  cases c with
  | ActivateTask t =>
    by_cases ht : t = .null
    · simp [exec, OSEK_ActivateTask, ht, Outcome.handed] at hpre
    · cases ha : k.g_actual_task_sp with
      | none => simp [exec, OSEK_ActivateTask, ht, ha, Outcome.handed] at hpre
      | some a =>
        have : store (store k (.node a) .READY) t .READY = pre := by
          simpa [exec, OSEK_ActivateTask, ht, ha, Outcome.handed] using hpre
        subst this
        exact store_noRunning _ _ _ (by decide)
          (setState_current_noRunning .READY (by decide) k a ha h)
  | TerminateTask =>
    cases ha : k.g_actual_task_sp with
    | none => simp [exec, OSEK_TerminateTask, ha, Outcome.handed] at hpre
    | some a =>
      have : store k (.node a) .SUSPENDED = pre := by
        simpa [exec, OSEK_TerminateTask, ha, Outcome.handed] using hpre
      subst this
      exact setState_current_noRunning .SUSPENDED (by decide) k a ha h
  | ChainTask t =>
    by_cases ht : t = .null
    · simp [exec, OSEK_ChainTask, ht, Outcome.handed] at hpre
    · cases ha : k.g_actual_task_sp with
      | none => simp [exec, OSEK_ChainTask, ht, ha, Outcome.handed] at hpre
      | some a =>
        have : store (store k (.node a) .SUSPENDED) t .READY = pre := by
          simpa [exec, OSEK_ChainTask, ht, ha, Outcome.handed] using hpre
        subst this
        exact store_noRunning _ _ _ (by decide)
          (setState_current_noRunning .SUSPENDED (by decide) k a ha h)

/-- A life-cycle call that reaches `OSEK_Scheduler` calls it on the globals it
hands over. -/
theorem exec_scheduled (k : Kernel) (c : Call) (pre : Kernel) (res : Kernel × Dispatch)
    (h : exec k c = .scheduled pre res) : res = OSEK_Scheduler pre := by
  cases c with
  | ActivateTask t =>
    by_cases ht : t = .null
    · simp [exec, OSEK_ActivateTask, ht] at h
    · cases ha : k.g_actual_task_sp with
      | none => simp [exec, OSEK_ActivateTask, ht, ha] at h
      | some a =>
        simp only [exec, OSEK_ActivateTask, ht, ha, if_false, Outcome.scheduled.injEq] at h
        rw [← h.1, ← h.2]
  | TerminateTask =>
    cases ha : k.g_actual_task_sp with
    | none => simp [exec, OSEK_TerminateTask, ha] at h
    | some a =>
      simp only [exec, OSEK_TerminateTask, ha, Outcome.scheduled.injEq] at h
      rw [← h.1, ← h.2]
  | ChainTask t =>
    by_cases ht : t = .null
    · simp [exec, OSEK_ChainTask, ht] at h
    · cases ha : k.g_actual_task_sp with
      | none => simp [exec, OSEK_ChainTask, ht, ha] at h
      | some a =>
        simp only [exec, OSEK_ChainTask, ht, ha, if_false, Outcome.scheduled.injEq] at h
        rw [← h.1, ← h.2]

theorem enter_os (res : Kernel × Dispatch) (frames : List Body) (invoked : List Nat) :
    (enter res frames invoked).os = res.1 := by
  unfold enter
  cases res.2 <;> rfl

theorem step_runningIsCurrent (m m1 : Machine) (h : RunningIsCurrent m.os)
    (hs : step m = some m1) : RunningIsCurrent m1.os := by
  unfold step at hs
  cases hctl : m.ctl with
  | restored => simp [hctl] at hs
  | fault => simp [hctl] at hs
  | inTasks frames =>
    cases frames with
    | nil => simp [hctl] at hs
    | cons b frames =>
      cases b with
      | nil =>
        simp only [hctl, Option.some.injEq] at hs
        rw [← hs]
        exact h
      | cons c rest =>
        simp only [hctl] at hs
        cases he : exec m.os c with
        | error k =>
          have hk : k = m.os := by
            cases c with
            | ActivateTask t =>
              by_cases ht : t = .null
              · simp [exec, OSEK_ActivateTask, ht] at he
                exact he.symm
              · cases ha : m.os.g_actual_task_sp <;>
                  simp [exec, OSEK_ActivateTask, ht, ha] at he
            | TerminateTask =>
              cases ha : m.os.g_actual_task_sp with
              | none =>
                simp [exec, OSEK_TerminateTask, ha] at he
                exact he.symm
              | some a => simp [exec, OSEK_TerminateTask, ha] at he
            | ChainTask t =>
              by_cases ht : t = .null
              · simp [exec, OSEK_ChainTask, ht] at he
                exact he.symm
              · cases ha : m.os.g_actual_task_sp <;>
                  simp [exec, OSEK_ChainTask, ht, ha] at he
          simp only [he, Option.some.injEq] at hs
          rw [← hs, hk]
          exact h
        | scheduled pre res =>
          simp only [he, Option.some.injEq] at hs
          rw [← hs, enter_os, exec_scheduled _ _ _ _ he]
          exact scheduler_runningIsCurrent pre
            (exec_handed_noRunning m.os c h pre (by simp [he, Outcome.handed]))
        | fault =>
          simp only [he, Option.some.injEq] at hs
          rw [← hs]
          exact h

theorem run_runningIsCurrent (n : Nat) :
    ∀ m : Machine, RunningIsCurrent m.os → RunningIsCurrent (run n m).os := by
  induction n with
  | zero => intro m h; exact h
  | succ n ih =>
    intro m h
    rw [run]
    cases hs : step m with
    | none => exact h
    | some m1 => exact ih m1 (step_runningIsCurrent m m1 h hs)

theorem reset_noRunning : NoRunning Kernel.reset.g_head_task_sp := by
  intro j u hu
  simp [Kernel.reset] at hu

theorem init_runningIsCurrent (k : Kernel) (h : NoRunning k.g_head_task_sp) :
    RunningIsCurrent (OSEK_Init k).os := by
  rw [OSEK_Init, enter_os]
  exact scheduler_runningIsCurrent k h

/-- C4: in every state reached from the reset state by a sequence of
`OSEK_CreateTask` calls, then `OSEK_Init`, then any number of steps of the
entry procedures (their activate / terminate / chain calls with the dispatches
these trigger, and their returns), at most one node of the list is RUNNING;
the same holds before `OSEK_Init`, and in the globals any life-cycle call made
in such a state hands to `OSEK_Scheduler` no node is RUNNING. -/
theorem at_most_one_running (cs : List CreateArgs) (n : Nat) :
    runningCount (createAll Kernel.reset cs) ≤ 1 ∧
    runningCount (run n (OSEK_Init (createAll Kernel.reset cs))).os ≤ 1 ∧
    (∀ (c : Call) (pre : Kernel),
      (exec (run n (OSEK_Init (createAll Kernel.reset cs))).os c).handed = some pre →
      runningCount pre = 0) := by
  have h0 := createAll_noRunning cs Kernel.reset reset_noRunning
  have hn := run_runningIsCurrent n _ (init_runningIsCurrent _ h0)
  refine ⟨?_, runningCount_le_one _ hn, ?_⟩
  · rw [runningCount_of_noRunning _ h0]
    exact Nat.zero_le 1
  · intro c pre hpre
    exact runningCount_of_noRunning pre (exec_handed_noRunning _ c hn pre hpre)

/-- Instance of C4 in the program of `main` (priorities 1, 3, 5): when `task_b`
is about to chain to `task_c`, the globals `OSEK_ChainTask` hands to the
dispatcher have no RUNNING node. -/
theorem at_most_one_running_witness :
    (exec (run 1 (OSEK_Init (createAll Kernel.reset (mainTasks 1 3 5)))).os
        (.ChainTask (.node 2))).handed =
      some ⟨[⟨1, true, .READY, some (task_a (.node 1))⟩,
             ⟨3, false, .SUSPENDED, some (task_b (.node 2))⟩,
             ⟨5, false, .READY, some task_c⟩], [], some 1⟩ ∧
    runningCount ⟨[⟨1, true, .READY, some (task_a (.node 1))⟩,
             ⟨3, false, .SUSPENDED, some (task_b (.node 2))⟩,
             ⟨5, false, .READY, some task_c⟩], [], some 1⟩ = 0 :=
  ⟨rfl, (at_most_one_running (mainTasks 1 3 5) 1).2.2 (.ChainTask (.node 2)) _ rfl⟩

/-! ## Running the machine -/

theorem run_of_step_none (n : Nat) (m : Machine) (h : step m = none) : run n m = m := by
  cases n with
  | zero => rfl
  | succ n => simp [run, h]

theorem run_add (a : Nat) : ∀ (b : Nat) (m : Machine), run (a + b) m = run b (run a m) := by
  induction a with
  | zero => intro b m; simp [run]
  | succ a ih =>
    intro b m
    have : a + 1 + b = (a + b) + 1 := by omega
    rw [this, run, run]
    cases hs : step m with
    | none => simp [run_of_step_none b m hs]
    | some m1 => simpa using ih b m1

theorem enter_invoked_grows (res : Kernel × Dispatch) (frames : List Body) (invoked : List Nat) :
    invoked <+: (enter res frames invoked).invoked := by
  unfold enter
  cases res.2 <;> simp

/-- The record of called entry procedures only grows at its end. -/
theorem step_invoked_grows (m m1 : Machine) (hs : step m = some m1) :
    m.invoked <+: m1.invoked := by
  unfold step at hs
  cases hctl : m.ctl with
  | restored => simp [hctl] at hs
  | fault => simp [hctl] at hs
  | inTasks frames =>
    cases frames with
    | nil => simp [hctl] at hs
    | cons b frames =>
      cases b with
      | nil =>
        simp only [hctl, Option.some.injEq] at hs
        rw [← hs]
      | cons c rest =>
        simp only [hctl] at hs
        cases he : exec m.os c with
        | error k =>
          simp only [he, Option.some.injEq] at hs
          rw [← hs]
        | scheduled pre res =>
          simp only [he, Option.some.injEq] at hs
          rw [← hs]
          exact enter_invoked_grows _ _ _
        | fault =>
          simp only [he, Option.some.injEq] at hs
          rw [← hs]

theorem run_invoked_grows (n : Nat) :
    ∀ m : Machine, m.invoked <+: (run n m).invoked := by
  induction n with
  | zero => intro m; exact List.prefix_refl _
  | succ n ih =>
    intro m
    rw [run]
    cases hs : step m with
    | none => exact List.prefix_refl _
    | some m1 => exact (step_invoked_grows m m1 hs).trans (ih m1)

theorem main_run (pA pB pC : Nat) (h0 : 0 < pA) (hAB : pA < pB) (hBC : pB < pC) :
    run 7 (main pA pB pC) = mainEnd pA pB pC := by
  have hk : createAll Kernel.reset (mainTasks pA pB pC) =
      ⟨[⟨pA, true, .READY, some (task_a (.node 1))⟩,
        ⟨pB, false, .SUSPENDED, some (task_b (.node 2))⟩,
        ⟨pC, false, .SUSPENDED, some task_c⟩], [], none⟩ := rfl
  have hAC : pA < pC := by omega
  have h0B : 0 < pB := by omega
  have h0C : 0 < pC := by omega
  have hBA : ¬ pB < pA := by omega
  have hCA : ¬ pC < pA := by omega
  have hCB : ¬ pC < pB := by omega
  unfold main
  rw [hk]
  simp [OSEK_Init, OSEK_Scheduler, candidate, scan, install, enter, run, step,
    exec, OSEK_ActivateTask, OSEK_TerminateTask, OSEK_ChainTask, store, setState, task_a,
    task_b, task_c, mainEnd, h0, hAB, hBC, hAC, h0B, h0C, hBA, hCA, hCB]

/-- The pointers `main` stores in `task_a_ptr`, `task_b_ptr` and `task_c_ptr`
are the nodes at positions 0, 1 and 2, as the bodies in `mainTasks` assume. -/
theorem main_task_pointers (pA pB pC : Nat) :
    (OSEK_CreateTask Kernel.reset (some (task_a (.node 1))) pA true).handle = .node 0 ∧
    (OSEK_CreateTask (createAll Kernel.reset ((mainTasks pA pB pC).take 1))
      (some (task_b (.node 2))) pB false).handle = .node 1 ∧
    (OSEK_CreateTask (createAll Kernel.reset ((mainTasks pA pB pC).take 2))
      (some task_c) pC false).handle = .node 2 :=
  ⟨rfl, rfl, rfl⟩

theorem mainEnd_step (pA pB pC : Nat) : step (mainEnd pA pB pC) = none := rfl

/-! ## Claims about the program of main -/

/-- C7: in the program of `main` with priorities `0 < pA < pB < pC` (1, 3, 5
in the source) the nodes at positions 0, 1, 2 are `task_a`, `task_b`, `task_c`;
at every point of the run started by `OSEK_Init` the entry procedures called so
far form a prefix of `task_a, task_b, task_c`; and after 7 steps the run has
ended (no further step) with exactly these three calls, each made once. -/
theorem main_invokes_a_b_c_once (pA pB pC : Nat) (h0 : 0 < pA) (hAB : pA < pB)
    (hBC : pB < pC) :
    (createAll Kernel.reset (mainTasks pA pB pC)).g_head_task_sp.map
        (fun t => t.task_addr_pf) =
      [some (task_a (.node 1)), some (task_b (.node 2)), some task_c] ∧
    (∀ n : Nat, (run n (main pA pB pC)).invoked <+: [0, 1, 2]) ∧
    (∀ n : Nat, 7 ≤ n →
      (run n (main pA pB pC)).invoked = [0, 1, 2] ∧
      step (run n (main pA pB pC)) = none) := by
  have h7 := main_run pA pB pC h0 hAB hBC
  have hge : ∀ n : Nat, 7 ≤ n → run n (main pA pB pC) = mainEnd pA pB pC := by
    intro n hn
    obtain ⟨b, rfl⟩ := Nat.exists_eq_add_of_le hn
    rw [run_add, h7, run_of_step_none b _ (mainEnd_step pA pB pC)]
  refine ⟨rfl, ?_, ?_⟩
  · intro n
    rcases Nat.lt_or_ge n 7 with hlt | hn
    · obtain ⟨b, hb⟩ := Nat.exists_eq_add_of_le (Nat.le_of_lt hlt)
      have hpre := run_invoked_grows b (run n (main pA pB pC))
      rw [← run_add, ← hb, h7] at hpre
      exact hpre
    · rw [hge n hn]
      exact List.prefix_refl _
  · intro n hn
    rw [hge n hn]
    exact ⟨rfl, rfl⟩

/-- Instance of C7 at the priorities of the source. -/
theorem main_invokes_a_b_c_once_witness :
    0 < 1 ∧ 1 < 3 ∧ 3 < 5 ∧ (run 7 (main 1 3 5)).invoked = [0, 1, 2] ∧
    step (run 7 (main 1 3 5)) = none :=
  ⟨by decide, by decide, by decide,
    (main_invokes_a_b_c_once 1 3 5 (by decide) (by decide) (by decide)).2.2 7 (Nat.le_refl 7)⟩

/-- C8, evaluated on the program of `main` (priorities 1, 3, 5): when `task_a`
resumes behind its `OSEK_ActivateTask` call and calls `OSEK_TerminateTask`,
`g_actual_task_sp` still points to `task_c`, so the call suspends `task_c` again
and leaves `task_a` READY; the run ends after 7 steps by ordinary returns with
states READY, SUSPENDED, SUSPENDED, and at no point is the boundary restored. -/
theorem main_ends_with_task_a_ready :
    (run 5 (main 1 3 5)).ctl = .inTasks [[.TerminateTask]] ∧
    (run 5 (main 1 3 5)).os.g_actual_task_sp = some 2 ∧
    states (run 5 (main 1 3 5)).os = [.READY, .SUSPENDED, .SUSPENDED] ∧
    states (run 6 (main 1 3 5)).os = [.READY, .SUSPENDED, .SUSPENDED] ∧
    run 7 (main 1 3 5) = mainEnd 1 3 5 ∧
    step (mainEnd 1 3 5) = none ∧
    (mainEnd 1 3 5).ctl = .inTasks [] ∧
    states (mainEnd 1 3 5).os = [.READY, .SUSPENDED, .SUSPENDED] ∧
    (∀ n : Nat, (run n (main 1 3 5)).ctl ≠ .restored) := by
  refine ⟨rfl, rfl, rfl, rfl, rfl, rfl, rfl, rfl, ?_⟩
  intro n
  rcases Nat.lt_or_ge n 7 with hlt | hn
  · interval_cases n <;> decide
  · obtain ⟨b, rfl⟩ := Nat.exists_eq_add_of_le hn
    have h7 : run 7 (main 1 3 5) = mainEnd 1 3 5 := rfl
    rw [run_add, h7, run_of_step_none b _ (mainEnd_step 1 3 5)]
    decide

/-- C9, evaluated on `reactivateTasks`: after 3 steps the second task has been
called once and has terminated itself (it is SUSPENDED, and still the current
task), and the first task (READY, priority 1) is about to activate it again;
that `OSEK_ActivateTask` makes it READY but the dispatcher returns without
installing it, and the run ends with the second task READY and called only
once. -/
theorem reactivated_task_is_not_dispatched :
    run 3 (OSEK_Init (createAll Kernel.reset reactivateTasks)) =
      ⟨⟨[⟨1, true, .READY, some [.ActivateTask (.node 1), .ActivateTask (.node 1)]⟩,
         ⟨3, false, .SUSPENDED, some [.TerminateTask]⟩], [], some 1⟩,
        .inTasks [[.ActivateTask (.node 1)]], [0, 1]⟩ ∧
    OSEK_ActivateTask (run 3 (OSEK_Init (createAll Kernel.reset reactivateTasks))).os (.node 1) =
      .scheduled
        ⟨[⟨1, true, .READY, some [.ActivateTask (.node 1), .ActivateTask (.node 1)]⟩,
          ⟨3, false, .READY, some [.TerminateTask]⟩], [], some 1⟩
        (⟨[⟨1, true, .READY, some [.ActivateTask (.node 1), .ActivateTask (.node 1)]⟩,
          ⟨3, false, .READY, some [.TerminateTask]⟩], [], some 1⟩, .keep) ∧
    run 5 (OSEK_Init (createAll Kernel.reset reactivateTasks)) =
      ⟨⟨[⟨1, true, .READY, some [.ActivateTask (.node 1), .ActivateTask (.node 1)]⟩,
         ⟨3, false, .READY, some [.TerminateTask]⟩], [], some 1⟩,
        .inTasks [], [0, 1]⟩ ∧
    step (run 5 (OSEK_Init (createAll Kernel.reset reactivateTasks))) = none :=
  ⟨rfl, rfl, rfl, rfl⟩

/-! ## OSEK_TerminateTask and the current-task pointer -/

/-- C10 fails as stated: on `demoteTasks`, after the first task has activated
the second (which does not beat it), no node is RUNNING, yet the
`OSEK_TerminateTask` the first task then calls does not take the error path:
it sets the first task SUSPENDED and calls the dispatcher. -/
theorem terminateTask_without_running_not_error :
    runningCount (run 1 (OSEK_Init (createAll Kernel.reset demoteTasks))).os = 0 ∧
    (run 1 (OSEK_Init (createAll Kernel.reset demoteTasks))).ctl =
      .inTasks [[.TerminateTask]] ∧
    states (run 1 (OSEK_Init (createAll Kernel.reset demoteTasks))).os = [.READY, .READY] ∧
    OSEK_TerminateTask (run 1 (OSEK_Init (createAll Kernel.reset demoteTasks))).os ≠
      .error (run 1 (OSEK_Init (createAll Kernel.reset demoteTasks))).os ∧
    (OSEK_TerminateTask (run 1 (OSEK_Init (createAll Kernel.reset demoteTasks))).os).after.map
      states = some [.SUSPENDED, .READY] := by
  refine ⟨rfl, rfl, rfl, ?_, rfl⟩
  decide

/-- C10, amended: in every state (so in every reachable state without a RUNNING
node) `OSEK_TerminateTask` takes the "Task empty" error path exactly when
`g_actual_task_sp` is NULL, and then returns the globals unchanged without
calling the dispatcher; when `g_actual_task_sp` points to a node, RUNNING or
not, the call stores SUSPENDED into that node and calls `OSEK_Scheduler`. -/
theorem terminateTask_error_iff_no_current (k : Kernel) :
    ((∃ k1 : Kernel, OSEK_TerminateTask k = .error k1) ↔ k.g_actual_task_sp = none) ∧
    (k.g_actual_task_sp = none → OSEK_TerminateTask k = .error k) ∧
    (∀ c : Nat, k.g_actual_task_sp = some c →
      OSEK_TerminateTask k =
        .scheduled (store k (.node c) .SUSPENDED)
          (OSEK_Scheduler (store k (.node c) .SUSPENDED))) := by
  cases ha : k.g_actual_task_sp with
  | none => simp [OSEK_TerminateTask, ha]
  | some c => simp [OSEK_TerminateTask, ha]

/-- Instance of the amended C10: before `OSEK_Init` there is no current task
and no RUNNING node, and `OSEK_TerminateTask` returns on the error path with
the globals unchanged. -/
theorem terminateTask_error_iff_no_current_witness :
    (createAll Kernel.reset demoteTasks).g_actual_task_sp = none ∧
    runningCount (createAll Kernel.reset demoteTasks) = 0 ∧
    OSEK_TerminateTask (createAll Kernel.reset demoteTasks) =
      .error (createAll Kernel.reset demoteTasks) :=
  ⟨rfl, rfl, (terminateTask_error_iff_no_current (createAll Kernel.reset demoteTasks)).2.1 rfl⟩

/-! ## Error paths of the life-cycle calls -/

/-- C11: with `g_actual_task_sp` NULL, `OSEK_TerminateTask` returns on its error
path: the globals (every task state, the NULL current task) are unchanged,
nothing is handed to `OSEK_Scheduler`, and the caller goes on with its next
call with no entry procedure called and no boundary restore. -/
theorem terminateTask_no_current_noop (k : Kernel) (rest : Body) (frames : List Body)
    (invoked : List Nat) (h : k.g_actual_task_sp = none) :
    OSEK_TerminateTask k = .error k ∧
    (OSEK_TerminateTask k).handed = none ∧
    (OSEK_TerminateTask k).after = some k ∧
    step ⟨k, .inTasks ((.TerminateTask :: rest) :: frames), invoked⟩ =
      some ⟨k, .inTasks (rest :: frames), invoked⟩ := by
  have h1 : OSEK_TerminateTask k = .error k := by simp [OSEK_TerminateTask, h]
  refine ⟨h1, by rw [h1]; rfl, by rw [h1]; rfl, ?_⟩
  simp [step, exec, h1]

/-- Instance of C11 on `nullEntryKernel` (no current task). -/
theorem terminateTask_no_current_noop_witness :
    nullEntryKernel.g_actual_task_sp = none ∧
    OSEK_TerminateTask nullEntryKernel = .error nullEntryKernel :=
  ⟨rfl, (terminateTask_no_current_noop nullEntryKernel [] [] [] rfl).1⟩

/-- Without a current task `OSEK_ActivateTask` and `OSEK_ChainTask` on a non-NULL
pointer reach the store `g_actual_task_sp->state_e = ...` (lines 167, 206). -/
theorem activate_chain_no_current (k : Kernel) (h : Handle) (hh : h ≠ .null)
    (hk : k.g_actual_task_sp = none) :
    OSEK_ActivateTask k h = .fault ∧ OSEK_ChainTask k h = .fault := by
  simp [OSEK_ActivateTask, OSEK_ChainTask, hh, hk]

/-- C12, evaluated at a failing input: after the two `OSEK_CreateTask` calls of
`demoteTasks` and before `OSEK_Init` there is no current task;
`OSEK_TerminateTask` returns on its error path there, but
`OSEK_ActivateTask` and `OSEK_ChainTask` on the second task have no such test
and store through the NULL `g_actual_task_sp`. -/
theorem activate_chain_store_through_null :
    (createAll Kernel.reset demoteTasks).g_actual_task_sp = none ∧
    OSEK_TerminateTask (createAll Kernel.reset demoteTasks) =
      .error (createAll Kernel.reset demoteTasks) ∧
    OSEK_ActivateTask (createAll Kernel.reset demoteTasks) (.node 1) = .fault ∧
    OSEK_ChainTask (createAll Kernel.reset demoteTasks) (.node 1) = .fault :=
  ⟨rfl, rfl, rfl, rfl⟩

/-- C13: whatever the list and the current task, `OSEK_ActivateTask(NULL)` and
`OSEK_ChainTask(NULL)` return on their error path: the globals are unchanged,
nothing is handed to `OSEK_Scheduler`, and the caller goes on with its next
call with no entry procedure called. -/
theorem activate_chain_null_noop (k : Kernel) (rest : Body) (frames : List Body)
    (invoked : List Nat) :
    OSEK_ActivateTask k .null = .error k ∧
    OSEK_ChainTask k .null = .error k ∧
    (OSEK_ActivateTask k .null).handed = none ∧
    (OSEK_ChainTask k .null).handed = none ∧
    step ⟨k, .inTasks ((.ActivateTask .null :: rest) :: frames), invoked⟩ =
      some ⟨k, .inTasks (rest :: frames), invoked⟩ ∧
    step ⟨k, .inTasks ((.ChainTask .null :: rest) :: frames), invoked⟩ =
      some ⟨k, .inTasks (rest :: frames), invoked⟩ := by
  have h1 : OSEK_ActivateTask k .null = .error k := by simp [OSEK_ActivateTask]
  have h2 : OSEK_ChainTask k .null = .error k := by simp [OSEK_ChainTask]
  refine ⟨h1, h2, by rw [h1]; rfl, by rw [h2]; rfl, ?_, ?_⟩
  · simp [step, exec, h1]
  · simp [step, exec, h2]

/-! ## A candidate without entry procedure -/

/-- What `OSEK_Scheduler` does once its candidate passes the test of lines
72-73. -/
theorem scheduler_of_pass (k : Kernel) (i : Nat) (t : OSEK_Task_t)
    (hc : candidate k = some (i, t))
    (hd : k.g_actual_task_sp = none ∨
      ∃ (c : Nat) (tc : OSEK_Task_t), k.g_actual_task_sp = some c ∧
        k.g_head_task_sp[c]? = some tc ∧ tc.priority_u8 < t.priority_u8) :
    OSEK_Scheduler k = install k i t := by
  rcases hd with hn | ⟨c, tc, ha, hg, hp⟩
  · simp [OSEK_Scheduler, hc, hn]
  · simp [OSEK_Scheduler, hc, ha, hg, hp]

/-- C14: when the candidate of `OSEK_Scheduler` passes the dispatch test (no
current task, or strictly greater priority than the current task) but its
entry pointer is NULL, the dispatcher calls no entry procedure and returns to
its caller; the candidate is then the current task and is left RUNNING, and no
other descriptor has changed. -/
theorem scheduler_missing_entry (k : Kernel) (i : Nat) (t : OSEK_Task_t)
    (frames : List Body) (invoked : List Nat)
    (hc : candidate k = some (i, t)) (he : t.task_addr_pf = none)
    (hd : k.g_actual_task_sp = none ∨
      ∃ (c : Nat) (tc : OSEK_Task_t), k.g_actual_task_sp = some c ∧
        k.g_head_task_sp[c]? = some tc ∧ tc.priority_u8 < t.priority_u8) :
    (OSEK_Scheduler k).2 = .missingEntry i ∧
    (OSEK_Scheduler k).2.invokes = false ∧
    (OSEK_Scheduler k).1.g_actual_task_sp = some i ∧
    (OSEK_Scheduler k).1.g_head_task_sp[i]? = some { t with state_e := .RUNNING } ∧
    (∀ j : Nat, j ≠ i → (OSEK_Scheduler k).1.g_head_task_sp[j]? = k.g_head_task_sp[j]?) ∧
    (OSEK_Scheduler k).1.unlinked = k.unlinked ∧
    enter (OSEK_Scheduler k) frames invoked =
      ⟨(OSEK_Scheduler k).1, .inTasks frames, invoked⟩ := by
  have hs : OSEK_Scheduler k =
      ({ k with g_actual_task_sp := some i
                g_head_task_sp := setState .RUNNING i k.g_head_task_sp },
        .missingEntry i) := by
    rw [scheduler_of_pass k i t hc hd]
    simp [install, he]
  have hget := (candidate_spec k i t hc).1
  rw [hs]
  refine ⟨rfl, rfl, rfl, setState_getElem?_self .RUNNING _ i t hget, ?_, rfl, rfl⟩
  intro j hj
  exact setState_getElem?_ne .RUNNING _ i j (fun h => hj h.symm)

/-- Instance of C14 on `nullEntryKernel`: the READY node of priority 2 has a NULL
entry pointer; it becomes current and RUNNING and nothing is called. -/
theorem scheduler_missing_entry_witness :
    candidate nullEntryKernel = some (0, ⟨2, true, .READY, none⟩) ∧
    (OSEK_Scheduler nullEntryKernel).2 = .missingEntry 0 ∧
    (OSEK_Scheduler nullEntryKernel).1.g_head_task_sp[0]? =
      some ⟨2, true, .RUNNING, none⟩ :=
  ⟨rfl,
    (scheduler_missing_entry nullEntryKernel 0 ⟨2, true, .READY, none⟩ [] [] rfl rfl
      (Or.inl rfl)).1,
    (scheduler_missing_entry nullEntryKernel 0 ⟨2, true, .READY, none⟩ [] [] rfl rfl
      (Or.inl rfl)).2.2.2.1⟩

/-! ## When the search finds a node -/

/-- The search returns a node as soon as it starts with one or the list holds a
READY node that beats the running maximum. -/
theorem scan_ne_none (l : List OSEK_Task_t) :
    ∀ (pos : Nat) (best : Option (Nat × OSEK_Task_t)) (mx : Nat),
      (best ≠ none ∨ ∃ (j : Nat) (u : OSEK_Task_t),
        l[j]? = some u ∧ u.state_e = .READY ∧ mx < u.priority_u8) →
      scan l pos best mx ≠ none := by
  induction l with
  | nil =>
    intro pos best mx h
    rcases h with h | ⟨j, u, hu, _, _⟩
    · simpa [scan] using h
    · simp at hu
  | cons a as ih =>
    intro pos best mx h
    by_cases hr : a.state_e = .READY
    · by_cases hp : a.priority_u8 > mx
      · have : scan (a :: as) pos best mx =
            scan as (pos + 1) (some (pos, a)) a.priority_u8 := by simp [scan, hr, hp]
        rw [this]
        exact ih _ _ _ (Or.inl (by simp))
      · have : scan (a :: as) pos best mx = scan as (pos + 1) best mx := by
          simp [scan, hr, hp]
        rw [this]
        apply ih
        rcases h with h | ⟨j, u, hu, hur, hup⟩
        · exact Or.inl h
        · cases j with
          | zero =>
            have : a = u := by simpa using hu
            subst this
            exact absurd hup hp
          | succ n => exact Or.inr ⟨n, u, by simpa using hu, hur, hup⟩
    · have : scan (a :: as) pos best mx = scan as (pos + 1) best mx := by
        simp [scan, hr]
      rw [this]
      apply ih
      rcases h with h | ⟨j, u, hu, hur, hup⟩
      · exact Or.inl h
      · cases j with
        | zero =>
          have : a = u := by simpa using hu
          subst this
          exact absurd hur hr
        | succ n => exact Or.inr ⟨n, u, by simpa using hu, hur, hup⟩

/-- A READY node of non-zero priority that strictly beats every other READY node
is the candidate. -/
theorem candidate_of_unique_max (k : Kernel) (i : Nat) (t : OSEK_Task_t)
    (hget : k.g_head_task_sp[i]? = some t) (hr : t.state_e = .READY)
    (hp : 0 < t.priority_u8)
    (hu : ∀ (j : Nat) (u : OSEK_Task_t), j ≠ i → k.g_head_task_sp[j]? = some u →
      u.state_e = .READY → u.priority_u8 < t.priority_u8) :
    candidate k = some (i, t) := by
  have hne : candidate k ≠ none :=
    scan_ne_none k.g_head_task_sp 0 none 0 (Or.inr ⟨i, t, hget, hr, hp⟩)
  cases hc : candidate k with
  | none => exact absurd hc hne
  | some q =>
    obtain ⟨i1, t1⟩ := q
    obtain ⟨hg1, hr1, _, hall, _⟩ := candidate_spec k i1 t1 hc
    have hle := hall i t hget hr
    have hi : i1 = i := by
      by_contra hcon
      have := hu i1 t1 hcon hg1 hr1
      omega
    subst hi
    rw [hget] at hg1
    rw [Option.some.inj hg1]

/-- A node the dispatcher installs is the candidate of its search. -/
theorem scheduler_target (k : Kernel) (i : Nat) (h : (OSEK_Scheduler k).2.target = some i) :
    ∃ t : OSEK_Task_t, candidate k = some (i, t) ∧ OSEK_Scheduler k = install k i t ∧
      (k.g_actual_task_sp = none ∨
        ∃ (c : Nat) (tc : OSEK_Task_t), k.g_actual_task_sp = some c ∧
          k.g_head_task_sp[c]? = some tc ∧ tc.priority_u8 < t.priority_u8) := by
  cases hc : candidate k with
  | none => simp [OSEK_Scheduler, hc, Dispatch.target] at h
  | some q =>
    obtain ⟨i1, t1⟩ := q
    have hinst : (install k i1 t1).2.target = some i1 := by
      cases he : t1.task_addr_pf <;> simp [install, he, Dispatch.target]
    cases ha : k.g_actual_task_sp with
    | none =>
      have hs : OSEK_Scheduler k = install k i1 t1 := by simp [OSEK_Scheduler, hc, ha]
      rw [hs, hinst] at h
      have := Option.some.inj h
      subst this
      exact ⟨t1, rfl, hs, Or.inl rfl⟩
    | some c =>
      cases hg : k.g_head_task_sp[c]? with
      | none => simp [OSEK_Scheduler, hc, ha, hg, Dispatch.target] at h
      | some tc =>
        by_cases hp : t1.priority_u8 > tc.priority_u8
        · have hs : OSEK_Scheduler k = install k i1 t1 := by
            simp [OSEK_Scheduler, hc, ha, hg, hp]
          rw [hs, hinst] at h
          have := Option.some.inj h
          subst this
          exact ⟨t1, rfl, hs, Or.inr ⟨c, tc, rfl, hg, hp⟩⟩
        · simp [OSEK_Scheduler, hc, ha, hg, hp, Dispatch.target] at h

/-! ## Activation of a higher-priority task -/

/-- C15: let the current task be the node `tc` at position `c`, and let `t` at
position `i ≠ c` have an entry procedure `body` and a priority strictly greater
than `tc` and than every other READY node.  Then `OSEK_ActivateTask` on `t`
hands the dispatcher the globals with `tc` and `t` READY, and the dispatcher
makes `t` the current task, RUNNING, and calls `body`; afterwards `tc` is READY
and no other descriptor has changed. -/
theorem activateTask_dispatches_higher (k : Kernel) (c i : Nat) (tc t : OSEK_Task_t)
    (body rest : Body) (frames : List Body) (invoked : List Nat)
    (hcur : k.g_actual_task_sp = some c) (hc : k.g_head_task_sp[c]? = some tc)
    (hi : k.g_head_task_sp[i]? = some t) (hne : i ≠ c)
    (he : t.task_addr_pf = some body) (hp : tc.priority_u8 < t.priority_u8)
    (hothers : ∀ (j : Nat) (u : OSEK_Task_t), j ≠ i → k.g_head_task_sp[j]? = some u →
      u.state_e = .READY → u.priority_u8 < t.priority_u8) :
    ∃ post : Kernel,
      OSEK_ActivateTask k (.node i) =
        .scheduled (store (store k (.node c) .READY) (.node i) .READY) (post, .run i body) ∧
      post.g_actual_task_sp = some i ∧
      post.g_head_task_sp[c]? = some { tc with state_e := .READY } ∧
      post.g_head_task_sp[i]? = some { t with state_e := .RUNNING } ∧
      (∀ j : Nat, j ≠ c → j ≠ i → post.g_head_task_sp[j]? = k.g_head_task_sp[j]?) ∧
      post.unlinked = k.unlinked ∧
      step ⟨k, .inTasks ((.ActivateTask (.node i) :: rest) :: frames), invoked⟩ =
        some ⟨post, .inTasks (body :: rest :: frames), invoked ++ [i]⟩ := by
  have hci : c ≠ i := fun h => hne h.symm
  let pre : Kernel := store (store k (.node c) .READY) (.node i) .READY
  have hpre_list : pre.g_head_task_sp =
      setState .READY i (setState .READY c k.g_head_task_sp) := rfl
  have hpre_cur : pre.g_actual_task_sp = some c := hcur
  have hpre_i : pre.g_head_task_sp[i]? = some { t with state_e := .READY } := by
    rw [hpre_list]
    apply setState_getElem?_self
    rw [setState_getElem?_ne _ _ c i hci]
    exact hi
  have hpre_c : pre.g_head_task_sp[c]? = some { tc with state_e := .READY } := by
    rw [hpre_list, setState_getElem?_ne _ _ i c hne]
    exact setState_getElem?_self _ _ c tc hc
  have hpre_o : ∀ j : Nat, j ≠ c → j ≠ i → pre.g_head_task_sp[j]? = k.g_head_task_sp[j]? := by
    intro j hjc hji
    rw [hpre_list, setState_getElem?_ne _ _ i j (fun h => hji h.symm),
      setState_getElem?_ne _ _ c j (fun h => hjc h.symm)]
  have hcand : candidate pre = some (i, { t with state_e := .READY }) := by
    apply candidate_of_unique_max pre i _ hpre_i rfl (by show 0 < t.priority_u8; omega)
    intro j u hji hu hur
    by_cases hjc : j = c
    · subst hjc
      rw [hpre_c] at hu
      have := Option.some.inj hu
      subst this
      exact hp
    · rw [hpre_o j hjc hji] at hu
      exact hothers j u hji hu hur
  have hs : OSEK_Scheduler pre =
      ({ pre with g_actual_task_sp := some i
                  g_head_task_sp := setState .RUNNING i pre.g_head_task_sp },
        .run i body) := by
    rw [scheduler_of_pass pre i _ hcand
      (Or.inr ⟨c, { tc with state_e := .READY }, hpre_cur, hpre_c, hp⟩)]
    simp [install, he]
  have hact : OSEK_ActivateTask k (.node i) = .scheduled pre (OSEK_Scheduler pre) := by
    simp [OSEK_ActivateTask, hcur, pre]
  refine ⟨{ pre with g_actual_task_sp := some i
                     g_head_task_sp := setState .RUNNING i pre.g_head_task_sp },
    by rw [hact, hs], rfl, ?_, ?_, ?_, rfl, ?_⟩
  · show (setState .RUNNING i pre.g_head_task_sp)[c]? = _
    rw [setState_getElem?_ne _ _ i c hne]
    exact hpre_c
  · show (setState .RUNNING i pre.g_head_task_sp)[i]? = _
    exact setState_getElem?_self .RUNNING pre.g_head_task_sp i
      { t with state_e := .READY } hpre_i
  · intro j hjc hji
    show (setState .RUNNING i pre.g_head_task_sp)[j]? = _
    rw [setState_getElem?_ne _ _ i j (fun h => hji h.symm)]
    exact hpre_o j hjc hji
  · simp [step, exec, hact, hs, enter]

/-- Instance of C15 on the program of `main`: `task_a` (current, priority 1)
activates `task_b` (priority 3), which becomes current and RUNNING and is
called, while `task_a` becomes READY. -/
theorem activateTask_dispatches_higher_witness :
    ∃ post : Kernel,
      OSEK_ActivateTask (main 1 3 5).os (.node 1) =
        .scheduled (store (store (main 1 3 5).os (.node 0) .READY) (.node 1) .READY)
          (post, .run 1 (task_b (.node 2))) ∧
      post.g_actual_task_sp = some 1 ∧
      post.g_head_task_sp[0]? = some ⟨1, true, .READY, some (task_a (.node 1))⟩ ∧
      post.g_head_task_sp[1]? = some ⟨3, false, .RUNNING, some (task_b (.node 2))⟩ ∧
      (∀ j : Nat, j ≠ 0 → j ≠ 1 →
        post.g_head_task_sp[j]? = (main 1 3 5).os.g_head_task_sp[j]?) ∧
      post.unlinked = (main 1 3 5).os.unlinked ∧
      step ⟨(main 1 3 5).os, .inTasks ((.ActivateTask (.node 1) :: []) :: []), []⟩ =
        some ⟨post, .inTasks (task_b (.node 2) :: [] :: []), [] ++ [1]⟩ :=
  activateTask_dispatches_higher (main 1 3 5).os 0 1
    ⟨1, true, .RUNNING, some (task_a (.node 1))⟩ ⟨3, false, .SUSPENDED, some (task_b (.node 2))⟩
    (task_b (.node 2)) [] [] [] rfl rfl rfl (by decide) rfl (by decide)
    (by
      intro j u hji hu hur
      have hk : (main 1 3 5).os.g_head_task_sp =
          [⟨1, true, .RUNNING, some (task_a (.node 1))⟩,
           ⟨3, false, .SUSPENDED, some (task_b (.node 2))⟩,
           ⟨5, false, .SUSPENDED, some task_c⟩] := rfl
      rw [hk] at hu
      match j, hji, hu with
      | 0, _, hu =>
        have : (⟨1, true, .RUNNING, some (task_a (.node 1))⟩ : OSEK_Task_t) = u := by
          simpa using hu
        subst this
        exact absurd hur (by decide)
      | 1, hji, _ => exact absurd rfl hji
      | 2, _, hu =>
        have : (⟨5, false, .SUSPENDED, some task_c⟩ : OSEK_Task_t) = u := by simpa using hu
        subst this
        exact absurd hur (by decide)
      | n + 3, _, hu => simp at hu)

/-! ## Priority 0 -/

/-- C19: whatever the list and the current task, a node of priority 0 is never
the candidate of the search of `OSEK_Scheduler` and is never installed by it;
and when every READY node has priority 0 (for instance when such a node is
the only READY one) there is no candidate at all and the dispatcher takes the
boundary-restore branch, since the running maximum starts at 0 and is
compared with strict `>`. -/
theorem scheduler_never_selects_priority_zero (k : Kernel) (i : Nat) (t : OSEK_Task_t)
    (hi : k.g_head_task_sp[i]? = some t) (hz : t.priority_u8 = 0) :
    (∀ u : OSEK_Task_t, candidate k ≠ some (i, u)) ∧
    (OSEK_Scheduler k).2.target ≠ some i ∧
    ((∀ (j : Nat) (u : OSEK_Task_t), k.g_head_task_sp[j]? = some u → u.state_e = .READY →
        u.priority_u8 = 0) →
      candidate k = none ∧ OSEK_Scheduler k = (k, .restore)) := by
  have h1 : ∀ u : OSEK_Task_t, candidate k ≠ some (i, u) := by
    intro u hc
    obtain ⟨hg, _, hpos, _, _⟩ := candidate_spec k i u hc
    rw [hi] at hg
    have := Option.some.inj hg
    subst this
    omega
  refine ⟨h1, ?_, ?_⟩
  · intro ht
    obtain ⟨u, hc, _, _⟩ := scheduler_target k i ht
    exact h1 u hc
  · intro hall
    have hn : candidate k = none := by
      cases hc : candidate k with
      | none => rfl
      | some q =>
        obtain ⟨i1, t1⟩ := q
        obtain ⟨hg, hr, hpos, _, _⟩ := candidate_spec k i1 t1 hc
        have := hall i1 t1 hg hr
        omega
    exact ⟨hn, by simp [OSEK_Scheduler, hn]⟩

/-- Instance of C19: a single linked node, READY, of priority 0, and no current
task: no candidate, boundary restore. -/
theorem scheduler_never_selects_priority_zero_witness :
    (⟨[⟨0, true, .READY, some task_c⟩], [], none⟩ : Kernel).g_head_task_sp[0]? =
      some ⟨0, true, .READY, some task_c⟩ ∧
    candidate ⟨[⟨0, true, .READY, some task_c⟩], [], none⟩ = none ∧
    OSEK_Scheduler ⟨[⟨0, true, .READY, some task_c⟩], [], none⟩ =
      (⟨[⟨0, true, .READY, some task_c⟩], [], none⟩, .restore) :=
  ⟨rfl,
    (scheduler_never_selects_priority_zero ⟨[⟨0, true, .READY, some task_c⟩], [], none⟩ 0
      ⟨0, true, .READY, some task_c⟩ rfl rfl).2.2 (by
        intro j u hu _
        match j, hu with
        | 0, hu =>
          have : (⟨0, true, .READY, some task_c⟩ : OSEK_Task_t) = u := by simpa using hu
          subst this
          rfl
        | n + 1, hu => simp at hu)⟩

/-! ## Chain against terminate-then-activate -/

theorem store_current (k : Kernel) (h : Handle) (st : OSEK_TaskState_t) :
    (store k h st).g_actual_task_sp = k.g_actual_task_sp := by
  cases h <;> rfl

theorem setState_setState_same (st1 st2 : OSEK_TaskState_t) (l : List OSEK_Task_t) :
    ∀ i : Nat, setState st2 i (setState st1 i l) = setState st2 i l := by
  induction l with
  | nil => intro i; simp [setState]
  | cons a as ih =>
    intro i
    cases i with
    | zero => simp [setState]
    | succ n => simp [setState, ih n]

/-- C16 fails as stated: in the program of `main` (priorities 1, 3, 5), when
`task_b` (current) chains to `task_c`, `OSEK_ChainTask` hands the dispatcher the
states READY, SUSPENDED, READY, whereas terminate's update followed by
activate's update gives READY, READY, READY. -/
theorem chainTask_differs_from_terminate_then_activate :
    (run 1 (main 1 3 5)).os.g_actual_task_sp = some 1 ∧
    (OSEK_ChainTask (run 1 (main 1 3 5)).os (.node 2)).handed.map states =
      some [.READY, .SUSPENDED, .READY] ∧
    (terminateThenActivate (run 1 (main 1 3 5)).os (.node 2)).map states =
      some [.READY, .READY, .READY] ∧
    (OSEK_ChainTask (run 1 (main 1 3 5)).os (.node 2)).handed ≠
      terminateThenActivate (run 1 (main 1 3 5)).os (.node 2) := by
  refine ⟨rfl, rfl, rfl, ?_⟩
  decide

/-- C16, amended: with a current task at position `c` and a non-NULL pointer
`h`, `OSEK_ChainTask` hands the dispatcher the globals with the current task
SUSPENDED and then the target READY.  Terminate's update followed by
activate's update gives the same current-task pointer, the same unlinked
descriptors and the same node at every position other than `c`; the two agree
entirely when `h` is the current task, and when it is not, the current task is
handed over SUSPENDED by chain and READY by terminate-then-activate. -/
theorem chainTask_handed (k : Kernel) (c : Nat) (h : Handle)
    (hcur : k.g_actual_task_sp = some c) (hh : h ≠ .null) :
    (OSEK_ChainTask k h).handed = some (store (store k (.node c) .SUSPENDED) h .READY) ∧
    terminateThenActivate k h =
      some (store (store (store k (.node c) .SUSPENDED) (.node c) .READY) h .READY) ∧
    (store (store k (.node c) .SUSPENDED) h .READY).g_actual_task_sp =
      (store (store (store k (.node c) .SUSPENDED) (.node c) .READY) h .READY).g_actual_task_sp ∧
    (store (store k (.node c) .SUSPENDED) h .READY).unlinked =
      (store (store (store k (.node c) .SUSPENDED) (.node c) .READY) h .READY).unlinked ∧
    (∀ j : Nat, j ≠ c →
      (store (store k (.node c) .SUSPENDED) h .READY).g_head_task_sp[j]? =
        (store (store (store k (.node c) .SUSPENDED) (.node c) .READY) h
          .READY).g_head_task_sp[j]?) ∧
    (h = .node c → (OSEK_ChainTask k h).handed = terminateThenActivate k h) ∧
    (h ≠ .node c → ∀ tc : OSEK_Task_t, k.g_head_task_sp[c]? = some tc →
      (store (store k (.node c) .SUSPENDED) h .READY).g_head_task_sp[c]? =
        some { tc with state_e := .SUSPENDED } ∧
      (store (store (store k (.node c) .SUSPENDED) (.node c) .READY) h
          .READY).g_head_task_sp[c]? = some { tc with state_e := .READY }) := by
  have hchain : (OSEK_ChainTask k h).handed =
      some (store (store k (.node c) .SUSPENDED) h .READY) := by
    simp [OSEK_ChainTask, hh, hcur, Outcome.handed]
  have hterm : (OSEK_TerminateTask k).handed = some (store k (.node c) .SUSPENDED) := by
    simp [OSEK_TerminateTask, hcur, Outcome.handed]
  have hcur1 : (store k (.node c) .SUSPENDED).g_actual_task_sp = some c := by
    rw [store_current, hcur]
  have htta : terminateThenActivate k h =
      some (store (store (store k (.node c) .SUSPENDED) (.node c) .READY) h .READY) := by
    unfold terminateThenActivate
    rw [hterm]
    simp [OSEK_ActivateTask, hh, hcur1, Outcome.handed]
  refine ⟨hchain, htta, ?_, ?_, ?_, ?_, ?_⟩
  · simp [store_current]
  · cases h <;> rfl
  · intro j hj
    have hcj : c ≠ j := fun e => hj e.symm
    cases h with
    | null => exact absurd rfl hh
    | node i =>
      show (setState .READY i (setState .SUSPENDED c k.g_head_task_sp))[j]? =
        (setState .READY i (setState .READY c (setState .SUSPENDED c k.g_head_task_sp)))[j]?
      rw [setState_setState_same]
      simp [setState_getElem?, hcj]
    | loose i =>
      show (setState .SUSPENDED c k.g_head_task_sp)[j]? =
        (setState .READY c (setState .SUSPENDED c k.g_head_task_sp))[j]?
      rw [setState_setState_same]
      simp [setState_getElem?, hcj]
  · intro hc
    subst hc
    rw [hchain, htta]
    simp [store, setState_setState_same]
  · intro hne tc htc
    cases h with
    | null => exact absurd rfl hh
    | node i =>
      have hic : i ≠ c := fun e => hne (by rw [e])
      refine ⟨?_, ?_⟩
      · show (setState .READY i (setState .SUSPENDED c k.g_head_task_sp))[c]? = _
        rw [setState_getElem?_ne _ _ i c hic]
        exact setState_getElem?_self _ _ c tc htc
      · show (setState .READY i (setState .READY c
            (setState .SUSPENDED c k.g_head_task_sp)))[c]? = _
        rw [setState_getElem?_ne _ _ i c hic, setState_setState_same]
        exact setState_getElem?_self _ _ c tc htc
    | loose i =>
      refine ⟨?_, ?_⟩
      · show (setState .SUSPENDED c k.g_head_task_sp)[c]? = _
        exact setState_getElem?_self _ _ c tc htc
      · show (setState .READY c (setState .SUSPENDED c k.g_head_task_sp))[c]? = _
        rw [setState_setState_same]
        exact setState_getElem?_self _ _ c tc htc

/-- Instance of the amended C16 at the chain call of `task_b` in the program of
`main`. -/
theorem chainTask_handed_witness :
    (run 1 (main 1 3 5)).os.g_actual_task_sp = some 1 ∧
    (OSEK_ChainTask (run 1 (main 1 3 5)).os (.node 2)).handed =
      some (store (store (run 1 (main 1 3 5)).os (.node 1) .SUSPENDED) (.node 2) .READY) :=
  ⟨rfl, (chainTask_handed (run 1 (main 1 3 5)).os 1 (.node 2) rfl (by decide)).1⟩

/-! ## What the calls leave alone -/

theorem setState_fixed (st : OSEK_TaskState_t) (l : List OSEK_Task_t) :
    ∀ i : Nat, (setState st i l).map fixedFields = l.map fixedFields := by
  induction l with
  | nil => intro i; simp [setState]
  | cons a as ih =>
    intro i
    cases i with
    | zero => simp [setState, fixedFields]
    | succ n => simp [setState, ih n]

theorem store_fixed (k : Kernel) (h : Handle) (st : OSEK_TaskState_t) :
    (store k h st).g_head_task_sp.map fixedFields = k.g_head_task_sp.map fixedFields ∧
    (store k h st).unlinked.map fixedFields = k.unlinked.map fixedFields := by
  cases h with
  | null => exact ⟨rfl, rfl⟩
  | node i => exact ⟨setState_fixed st _ i, rfl⟩
  | loose i => exact ⟨rfl, setState_fixed st _ i⟩

theorem store_changed_list (k : Kernel) (h : Handle) (st : OSEK_TaskState_t) (j : Nat)
    (hj : (store k h st).g_head_task_sp[j]? ≠ k.g_head_task_sp[j]?) : h = .node j := by
  cases h with
  | null => exact absurd rfl hj
  | node i =>
    by_cases hij : i = j
    · rw [hij]
    · exact absurd (setState_getElem?_ne st _ i j hij) hj
  | loose i => exact absurd rfl hj

theorem store_changed_unlinked (k : Kernel) (h : Handle) (st : OSEK_TaskState_t) (j : Nat)
    (hj : (store k h st).unlinked[j]? ≠ k.unlinked[j]?) : h = .loose j := by
  cases h with
  | null => exact absurd rfl hj
  | node i => exact absurd rfl hj
  | loose i =>
    by_cases hij : i = j
    · rw [hij]
    · exact absurd (setState_getElem?_ne st _ i j hij) hj

theorem install_eq (k : Kernel) (i : Nat) (t : OSEK_Task_t) :
    (install k i t).1 =
        { k with g_actual_task_sp := some i
                 g_head_task_sp := setState .RUNNING i k.g_head_task_sp } ∧
      (install k i t).2.target = some i := by
  cases he : t.task_addr_pf <;> simp [install, he, Dispatch.target]

/-- The dispatcher either installs its candidate or returns the globals as they
were. -/
theorem scheduler_cases (k : Kernel) :
    ((OSEK_Scheduler k).1 = k ∧ (OSEK_Scheduler k).2.target = none) ∨
    ∃ (i : Nat) (t : OSEK_Task_t), candidate k = some (i, t) ∧
      OSEK_Scheduler k = install k i t := by
  cases hc : candidate k with
  | none => left; simp [OSEK_Scheduler, hc, Dispatch.target]
  | some q =>
    obtain ⟨i, t⟩ := q
    cases ha : k.g_actual_task_sp with
    | none => right; exact ⟨i, t, rfl, by simp [OSEK_Scheduler, hc, ha]⟩
    | some c =>
      cases hg : k.g_head_task_sp[c]? with
      | none => left; simp [OSEK_Scheduler, hc, ha, hg, Dispatch.target]
      | some tc =>
        by_cases hp : t.priority_u8 > tc.priority_u8
        · right; exact ⟨i, t, rfl, by simp [OSEK_Scheduler, hc, ha, hg, hp]⟩
        · left; simp [OSEK_Scheduler, hc, ha, hg, hp, Dispatch.target]

/-- Frame of one dispatcher call: the fixed fields of every node and the
unlinked descriptors are kept, a node changes only if it is installed, the
globals are untouched when nothing is installed, and an installed node is the
current task afterwards. -/
theorem scheduler_frame (k : Kernel) :
    (OSEK_Scheduler k).1.g_head_task_sp.map fixedFields = k.g_head_task_sp.map fixedFields ∧
    (OSEK_Scheduler k).1.unlinked = k.unlinked ∧
    (∀ j : Nat, (OSEK_Scheduler k).1.g_head_task_sp[j]? ≠ k.g_head_task_sp[j]? →
      (OSEK_Scheduler k).2.target = some j) ∧
    ((OSEK_Scheduler k).2.target = none → (OSEK_Scheduler k).1 = k) ∧
    (∀ i : Nat, (OSEK_Scheduler k).2.target = some i →
      (OSEK_Scheduler k).1.g_actual_task_sp = some i) := by
  rcases scheduler_cases k with ⟨h1, h2⟩ | ⟨i, t, _, hs⟩
  · rw [h1, h2]
    exact ⟨rfl, rfl, fun j hj => absurd rfl hj, fun _ => rfl, fun i hi => by simp at hi⟩
  · obtain ⟨he1, he2⟩ := install_eq k i t
    rw [hs, he1, he2]
    refine ⟨setState_fixed _ _ i, rfl, ?_, fun h => by simp at h, fun j hj => ?_⟩
    · intro j hj
      by_cases hij : i = j
      · rw [hij]
      · exact absurd (setState_getElem?_ne .RUNNING _ i j hij) hj
    · exact hj

theorem exec_error (k k1 : Kernel) (c : Call) (h : exec k c = .error k1) : k1 = k := by
  cases c with
  | ActivateTask t =>
    by_cases ht : t = .null
    · simp [exec, OSEK_ActivateTask, ht] at h
      exact h.symm
    · cases ha : k.g_actual_task_sp <;> simp [exec, OSEK_ActivateTask, ht, ha] at h
  | TerminateTask =>
    cases ha : k.g_actual_task_sp with
    | none =>
      simp [exec, OSEK_TerminateTask, ha] at h
      exact h.symm
    | some a => simp [exec, OSEK_TerminateTask, ha] at h
  | ChainTask t =>
    by_cases ht : t = .null
    · simp [exec, OSEK_ChainTask, ht] at h
      exact h.symm
    · cases ha : k.g_actual_task_sp <;> simp [exec, OSEK_ChainTask, ht, ha] at h

/-- A life-cycle call that reaches the dispatcher had a current task, stored a
state into it, then READY into its target, and called `OSEK_Scheduler` on the
result. -/
theorem exec_scheduled_pre (k : Kernel) (c : Call) (pre : Kernel) (res : Kernel × Dispatch)
    (h : exec k c = .scheduled pre res) :
    ∃ (a : Nat) (st : OSEK_TaskState_t), k.g_actual_task_sp = some a ∧
      pre = store (store k (.node a) st) c.target .READY ∧ res = OSEK_Scheduler pre := by
  cases c with
  | ActivateTask t =>
    by_cases ht : t = .null
    · simp [exec, OSEK_ActivateTask, ht] at h
    · cases ha : k.g_actual_task_sp with
      | none => simp [exec, OSEK_ActivateTask, ht, ha] at h
      | some a =>
        simp only [exec, OSEK_ActivateTask, ht, ha, if_false, Outcome.scheduled.injEq] at h
        exact ⟨a, .READY, rfl, h.1.symm, by rw [← h.1, ← h.2]⟩
  | TerminateTask =>
    cases ha : k.g_actual_task_sp with
    | none => simp [exec, OSEK_TerminateTask, ha] at h
    | some a =>
      simp only [exec, OSEK_TerminateTask, ha, Outcome.scheduled.injEq] at h
      exact ⟨a, .SUSPENDED, rfl, h.1.symm, by rw [← h.1, ← h.2]⟩
  | ChainTask t =>
    by_cases ht : t = .null
    · simp [exec, OSEK_ChainTask, ht] at h
    · cases ha : k.g_actual_task_sp with
      | none => simp [exec, OSEK_ChainTask, ht, ha] at h
      | some a =>
        simp only [exec, OSEK_ChainTask, ht, ha, if_false, Outcome.scheduled.injEq] at h
        exact ⟨a, .SUSPENDED, rfl, h.1.symm, by rw [← h.1, ← h.2]⟩

/-- C17: `OSEK_Scheduler` keeps the priority, autostart flag and entry pointer
of every node, in list order, and the unlinked descriptors, and changes a node
only if it installs it.  A life-cycle call (`OSEK_ActivateTask`,
`OSEK_TerminateTask`, `OSEK_ChainTask`) that returns or reaches the dispatcher
keeps the same fields of every node and of every unlinked descriptor, in
order; a node it changes is the current task at call time, the target of the
call, or the node its dispatcher call installs; an unlinked descriptor it
changes is the target of the call. -/
theorem calls_only_change_states (k : Kernel) (c : Call) :
    ((OSEK_Scheduler k).1.g_head_task_sp.map fixedFields =
        k.g_head_task_sp.map fixedFields ∧
      (OSEK_Scheduler k).1.unlinked = k.unlinked ∧
      ∀ j : Nat, (OSEK_Scheduler k).1.g_head_task_sp[j]? ≠ k.g_head_task_sp[j]? →
        (OSEK_Scheduler k).2.target = some j) ∧
    (∀ k2 : Kernel, (exec k c).after = some k2 →
      k2.g_head_task_sp.map fixedFields = k.g_head_task_sp.map fixedFields ∧
      k2.unlinked.map fixedFields = k.unlinked.map fixedFields ∧
      (∀ j : Nat, k2.g_head_task_sp[j]? ≠ k.g_head_task_sp[j]? →
        k.g_actual_task_sp = some j ∨ c.target = .node j ∨
          ∃ pre : Kernel, (exec k c).handed = some pre ∧
            (OSEK_Scheduler pre).2.target = some j) ∧
      (∀ j : Nat, k2.unlinked[j]? ≠ k.unlinked[j]? → c.target = .loose j)) := by
  obtain ⟨hf, hu, hch, _, _⟩ := scheduler_frame k
  refine ⟨⟨hf, hu, hch⟩, ?_⟩
  intro k2 hk2
  cases he : exec k c with
  | fault => simp [he, Outcome.after] at hk2
  | error k1 =>
    have h1 := exec_error k k1 c he
    have h2 : k1 = k2 := by simpa [he, Outcome.after] using hk2
    rw [← h2, h1]
    exact ⟨rfl, rfl, fun j hj => absurd rfl hj, fun j hj => absurd rfl hj⟩
  | scheduled pre res =>
    obtain ⟨a, st, hcur, hpre, hres⟩ := exec_scheduled_pre k c pre res he
    have h2 : res.1 = k2 := by simpa [he, Outcome.after] using hk2
    obtain ⟨pf, pu, pch, _, _⟩ := scheduler_frame pre
    have hs1 := store_fixed k (.node a) st
    have hs2 := store_fixed (store k (.node a) st) c.target .READY
    rw [← h2, hres]
    refine ⟨?_, ?_, ?_, ?_⟩
    · rw [pf, hpre, hs2.1, hs1.1]
    · rw [pu, hpre, hs2.2, hs1.2]
    · intro j hj
      by_cases h3 : (OSEK_Scheduler pre).1.g_head_task_sp[j]? = pre.g_head_task_sp[j]?
      · rw [h3, hpre] at hj
        by_cases h4 : (store (store k (.node a) st) c.target .READY).g_head_task_sp[j]? =
            (store k (.node a) st).g_head_task_sp[j]?
        · rw [h4] at hj
          have := store_changed_list k (.node a) st j hj
          left
          rw [hcur, Handle.node.inj this]
        · right; left
          exact store_changed_list _ _ _ j h4
      · right; right
        exact ⟨pre, by simp [Outcome.handed], pch j h3⟩
    · intro j hj
      rw [pu, hpre] at hj
      by_cases h4 : (store (store k (.node a) st) c.target .READY).unlinked[j]? =
          (store k (.node a) st).unlinked[j]?
      · rw [h4] at hj
        exact absurd rfl hj
      · exact store_changed_unlinked _ _ _ j h4

/-- Instance of C17 at the chain call of `task_b` in the program of `main`: the
call ends with states READY, SUSPENDED, RUNNING and the priorities, autostart
flags and entry pointers it started with. -/
theorem calls_only_change_states_witness :
    (exec (run 1 (main 1 3 5)).os (.ChainTask (.node 2))).after = some (run 2 (main 1 3 5)).os ∧
    states (run 2 (main 1 3 5)).os = [.READY, .SUSPENDED, .RUNNING] ∧
    (run 2 (main 1 3 5)).os.g_head_task_sp.map fixedFields =
      (run 1 (main 1 3 5)).os.g_head_task_sp.map fixedFields :=
  ⟨rfl, rfl,
    ((calls_only_change_states (run 1 (main 1 3 5)).os (.ChainTask (.node 2))).2
      (run 2 (main 1 3 5)).os rfl).1⟩

/-! ## The priority ratchet -/

theorem priorityAt_of_fixed (k1 k2 : Kernel)
    (h : k1.g_head_task_sp.map fixedFields = k2.g_head_task_sp.map fixedFields) (i : Nat) :
    priorityAt k1 i = priorityAt k2 i := by
  have h1 : (k1.g_head_task_sp.map fixedFields)[i]? =
      (k2.g_head_task_sp.map fixedFields)[i]? := by rw [h]
  rw [List.getElem?_map, List.getElem?_map] at h1
  unfold priorityAt
  cases h3 : k1.g_head_task_sp[i]? with
  | none =>
    cases h4 : k2.g_head_task_sp[i]? with
    | none => rfl
    | some t2 => simp [h3, h4] at h1
  | some t1 =>
    cases h4 : k2.g_head_task_sp[i]? with
    | none => simp [h3, h4] at h1
    | some t2 =>
      simp [h3, h4, fixedFields] at h1
      exact h1.1

theorem length_of_fixed (k1 k2 : Kernel)
    (h : k1.g_head_task_sp.map fixedFields = k2.g_head_task_sp.map fixedFields) :
    k1.g_head_task_sp.length = k2.g_head_task_sp.length := by
  have := congrArg List.length h
  simpa using this

theorem priorityAt_of_getElem? (k : Kernel) (i : Nat) (t : OSEK_Task_t)
    (h : k.g_head_task_sp[i]? = some t) : priorityAt k i = t.priority_u8 := by
  simp [priorityAt, h]

/-- One step of the machine: priorities stay, the current-task pointer stays
linked; a step that installs a node makes it current, and its priority is
strictly greater than that of the task that was current; a step that installs
nothing leaves the current-task pointer as it was. -/
theorem step_ratchet (m m1 : Machine) (hs : step m = some m1) (hv : CurrentLinked m.os) :
    (∀ i : Nat, priorityAt m1.os i = priorityAt m.os i) ∧
    CurrentLinked m1.os ∧
    (∀ i : Nat, m.installs = some i →
      m1.os.g_actual_task_sp = some i ∧
      ∀ c : Nat, m.os.g_actual_task_sp = some c → priorityAt m.os c < priorityAt m.os i) ∧
    (m.installs = none → m1.os.g_actual_task_sp = m.os.g_actual_task_sp) := by
  unfold step at hs
  cases hctl : m.ctl with
  | restored => simp [hctl] at hs
  | fault => simp [hctl] at hs
  | inTasks frames =>
    cases frames with
    | nil => simp [hctl] at hs
    | cons b frames =>
      cases b with
      | nil =>
        simp only [hctl, Option.some.injEq] at hs
        rw [← hs]
        exact ⟨fun _ => rfl, hv, fun i hi => by simp [Machine.installs, hctl] at hi,
          fun _ => rfl⟩
      | cons c rest =>
        simp only [hctl] at hs
        cases he : exec m.os c with
        | error k1 =>
          have hk := exec_error m.os k1 c he
          simp only [he, Option.some.injEq] at hs
          rw [← hs]
          subst hk
          exact ⟨fun _ => rfl, hv, fun i hi => by simp [Machine.installs, hctl, he] at hi,
            fun _ => rfl⟩
        | fault =>
          simp only [he, Option.some.injEq] at hs
          rw [← hs]
          exact ⟨fun _ => rfl, hv, fun i hi => by simp [Machine.installs, hctl, he] at hi,
            fun _ => rfl⟩
        | scheduled pre res =>
          obtain ⟨a, st, hcur, hpre, hres⟩ := exec_scheduled_pre m.os c pre res he
          simp only [he, Option.some.injEq] at hs
          have hos : m1.os = (OSEK_Scheduler pre).1 := by rw [← hs, enter_os, hres]
          have hinst : m.installs = (OSEK_Scheduler pre).2.target := by
            simp [Machine.installs, hctl, he, hres]
          obtain ⟨pf, _, _, pnone, psome⟩ := scheduler_frame pre
          have hfix_pre : pre.g_head_task_sp.map fixedFields =
              m.os.g_head_task_sp.map fixedFields := by
            rw [hpre, (store_fixed _ _ _).1, (store_fixed _ _ _).1]
          have hcur_pre : pre.g_actual_task_sp = some a := by
            rw [hpre, store_current, store_current, hcur]
          have hfix : m1.os.g_head_task_sp.map fixedFields =
              m.os.g_head_task_sp.map fixedFields := by rw [hos, pf, hfix_pre]
          have hlen := length_of_fixed _ _ hfix
          refine ⟨fun i => priorityAt_of_fixed _ _ hfix i, ?_, ?_, ?_⟩
          · intro c1 hc1
            rw [hlen]
            cases ht : (OSEK_Scheduler pre).2.target with
            | none =>
              rw [hos, pnone ht, hcur_pre] at hc1
              exact hv c1 (by rw [hcur, ← hc1])
            | some i =>
              rw [hos, psome i ht] at hc1
              obtain ⟨t, hc, _, _⟩ := scheduler_target pre i ht
              have hgi := (candidate_spec pre i t hc).1
              have hlt : i < pre.g_head_task_sp.length := by
                rcases Nat.lt_or_ge i pre.g_head_task_sp.length with h | h
                · exact h
                · rw [List.getElem?_eq_none_iff.mpr h] at hgi
                  simp at hgi
              rw [← length_of_fixed _ _ hfix_pre, ← Option.some.inj hc1]
              exact hlt
          · intro i hi
            rw [hinst] at hi
            refine ⟨by rw [hos, psome i hi], ?_⟩
            intro c1 hc1
            obtain ⟨t, hc, _, hpass⟩ := scheduler_target pre i hi
            have hgi := (candidate_spec pre i t hc).1
            rcases hpass with hn | ⟨c2, tc, hc2, hg2, hp⟩
            · rw [hcur_pre] at hn
              simp at hn
            · rw [hcur_pre] at hc2
              have hac : a = c2 := Option.some.inj hc2
              have hac1 : a = c1 := by
                rw [hcur] at hc1
                exact Option.some.inj hc1
              rw [← priorityAt_of_fixed _ _ hfix_pre c1, ← priorityAt_of_fixed _ _ hfix_pre i,
                priorityAt_of_getElem? pre i t hgi, ← hac1, hac,
                priorityAt_of_getElem? pre c2 tc hg2]
              exact hp
          · intro hn
            rw [hinst] at hn
            rw [hos, pnone hn, hcur_pre, hcur]

/-- Along a run the installed nodes have strictly increasing priorities, all
above the priority of the task that is current at the start. -/
theorem installedBy_increasing (k : Kernel) (n : Nat) :
    ∀ m : Machine, (∀ i : Nat, priorityAt m.os i = priorityAt k i) → CurrentLinked m.os →
      List.Pairwise (fun a b => priorityAt k a < priorityAt k b) (installedBy n m) ∧
      ∀ x ∈ installedBy n m, ∀ c : Nat, m.os.g_actual_task_sp = some c →
        priorityAt k c < priorityAt k x := by
  induction n with
  | zero => intro m _ _; simp [installedBy]
  | succ n ih =>
    intro m hpr hv
    rw [installedBy]
    cases hs : step m with
    | none => simp
    | some m1 =>
      obtain ⟨hp1, hv1, hsome, hnone⟩ := step_ratchet m m1 hs hv
      obtain ⟨ihp, ihc⟩ := ih m1 (fun i => by rw [hp1 i, hpr i]) hv1
      cases hi : m.installs with
      | none =>
        have hcur := hnone hi
        simp only [Option.toList, List.nil_append]
        exact ⟨ihp, fun x hx c hc => ihc x hx c (by rw [hcur, hc])⟩
      | some i =>
        obtain ⟨hcur1, hlt⟩ := hsome i hi
        simp only [Option.toList, List.singleton_append]
        refine ⟨List.pairwise_cons.mpr ⟨fun x hx => ihc x hx i hcur1, ihp⟩, ?_⟩
        intro x hx c hc
        have hci : priorityAt k c < priorityAt k i := by
          have := hlt c hc
          rwa [hpr c, hpr i] at this
        rcases List.mem_cons.mp hx with hxi | hxr
        · rw [hxi]; exact hci
        · exact Nat.lt_trans hci (ihc x hxr i hcur1)

theorem createTask_current (k : Kernel) (f : Option Body) (p : Nat) (a : Bool) :
    (OSEK_CreateTask k f p a).os.g_actual_task_sp = k.g_actual_task_sp := by
  unfold OSEK_CreateTask
  cases k.g_head_task_sp with
  | nil => rfl
  | cons t ts =>
    by_cases h : (linkLoop (newTask f p a) (MAX_TASKS - 1) (t :: ts)).2.1 = true <;> simp [h]

theorem createAll_current (cs : List CreateArgs) :
    ∀ k : Kernel, (createAll k cs).g_actual_task_sp = k.g_actual_task_sp := by
  induction cs with
  | nil => intro k; rfl
  | cons a as ih =>
    intro k
    rw [createAll, ih, createTask_current]

/-- The installs of a whole execution, started by `OSEK_Init` with no current
task, have strictly increasing priorities. -/
theorem dispatchHistory_increasing (k : Kernel) (n : Nat) (hk : k.g_actual_task_sp = none) :
    List.Pairwise (fun a b => priorityAt k a < priorityAt k b) (dispatchHistory k n) := by
  obtain ⟨pf, _, _, pnone, psome⟩ := scheduler_frame k
  have hos : (OSEK_Init k).os = (OSEK_Scheduler k).1 := by rw [OSEK_Init, enter_os]
  have hpr : ∀ i : Nat, priorityAt (OSEK_Init k).os i = priorityAt k i := by
    intro i
    apply priorityAt_of_fixed
    rw [hos, pf]
  unfold dispatchHistory
  cases ht : (OSEK_Scheduler k).2.target with
  | none =>
    have hv : CurrentLinked (OSEK_Init k).os := by
      intro c hc
      rw [hos, pnone ht, hk] at hc
      simp at hc
    simp only [Option.toList, List.nil_append]
    exact (installedBy_increasing k n _ hpr hv).1
  | some i =>
    obtain ⟨t, hc, _, _⟩ := scheduler_target k i ht
    have hgi := (candidate_spec k i t hc).1
    have hcur : (OSEK_Init k).os.g_actual_task_sp = some i := by rw [hos, psome i ht]
    have hv : CurrentLinked (OSEK_Init k).os := by
      intro c hc1
      rw [hcur] at hc1
      rw [← Option.some.inj hc1, hos, length_of_fixed _ _ pf]
      rcases Nat.lt_or_ge i k.g_head_task_sp.length with h | h
      · exact h
      · rw [List.getElem?_eq_none_iff.mpr h] at hgi
        simp at hgi
    obtain ⟨h1, h2⟩ := installedBy_increasing k n _ hpr hv
    simp only [Option.toList, List.singleton_append]
    exact List.pairwise_cons.mpr ⟨fun x hx => h2 x hx i hcur, h1⟩

/-- C18: (1) `OSEK_CreateTask`, `OSEK_Scheduler` and the life-cycle calls never
turn a non-NULL current-task pointer into NULL; (2) whenever `OSEK_Scheduler`
installs a node while there is a current task, the node becomes the current
task and its priority is strictly greater than that of the previous one; (3)
in every execution (any `OSEK_CreateTask` calls from the reset state, then
`OSEK_Init`, then any number of steps) the priorities of the successively
installed nodes are strictly increasing, and no node is installed twice. -/
theorem priority_ratchet (k : Kernel) (cs : List CreateArgs) (n : Nat) :
    (k.g_actual_task_sp ≠ none →
      (∀ (f : Option Body) (p : Nat) (a : Bool),
        (OSEK_CreateTask k f p a).os.g_actual_task_sp ≠ none) ∧
      (OSEK_Scheduler k).1.g_actual_task_sp ≠ none ∧
      ∀ (c : Call) (k2 : Kernel), (exec k c).after = some k2 → k2.g_actual_task_sp ≠ none) ∧
    (∀ (c i : Nat) (tc : OSEK_Task_t), k.g_actual_task_sp = some c →
      k.g_head_task_sp[c]? = some tc → (OSEK_Scheduler k).2.target = some i →
      (OSEK_Scheduler k).1.g_actual_task_sp = some i ∧
      ∃ t : OSEK_Task_t, k.g_head_task_sp[i]? = some t ∧ tc.priority_u8 < t.priority_u8) ∧
    List.Pairwise (· < ·)
      ((dispatchHistory (createAll Kernel.reset cs) n).map
        (priorityAt (createAll Kernel.reset cs))) ∧
    (dispatchHistory (createAll Kernel.reset cs) n).Nodup := by
  have hsched : ∀ k0 : Kernel, k0.g_actual_task_sp ≠ none →
      (OSEK_Scheduler k0).1.g_actual_task_sp ≠ none := by
    intro k0 h0
    obtain ⟨_, _, _, pnone, psome⟩ := scheduler_frame k0
    cases ht : (OSEK_Scheduler k0).2.target with
    | none => rw [pnone ht]; exact h0
    | some i => rw [psome i ht]; simp
  have hinc := dispatchHistory_increasing (createAll Kernel.reset cs) n
    (by rw [createAll_current]; rfl)
  refine ⟨?_, ?_, ?_, ?_⟩
  · intro hne
    refine ⟨fun f p a => by rw [createTask_current]; exact hne, hsched k hne, ?_⟩
    intro c k2 hk2
    cases he : exec k c with
    | fault => simp [he, Outcome.after] at hk2
    | error k1 =>
      have h1 := exec_error k k1 c he
      have h2 : k1 = k2 := by simpa [he, Outcome.after] using hk2
      rw [← h2, h1]
      exact hne
    | scheduled pre res =>
      obtain ⟨a, st, hcur, hpre, hres⟩ := exec_scheduled_pre k c pre res he
      have h2 : res.1 = k2 := by simpa [he, Outcome.after] using hk2
      rw [← h2, hres]
      apply hsched
      rw [hpre, store_current, store_current, hcur]
      simp
  · intro c i tc hcur hg ht
    obtain ⟨_, _, _, _, psome⟩ := scheduler_frame k
    obtain ⟨t, hc, _, hpass⟩ := scheduler_target k i ht
    refine ⟨psome i ht, t, (candidate_spec k i t hc).1, ?_⟩
    rcases hpass with hn | ⟨c2, tc2, hc2, hg2, hp⟩
    · rw [hcur] at hn
      simp at hn
    · rw [hcur] at hc2
      have := Option.some.inj hc2
      subst this
      rw [hg] at hg2
      rw [Option.some.inj hg2]
      exact hp
  · exact List.pairwise_map.mpr hinc
  · exact hinc.imp (fun h e => by rw [e] at h; exact Nat.lt_irrefl _ h)

/-- Instance of C18 in the program of `main` (priorities 1, 3, 5): with `task_a`
current, the dispatcher call made by `OSEK_ActivateTask(task_b)` installs
`task_b`, of strictly greater priority. -/
theorem priority_ratchet_witness :
    (store (store (main 1 3 5).os (.node 0) .READY) (.node 1) .READY).g_actual_task_sp =
      some 0 ∧
    (OSEK_Scheduler (store (store (main 1 3 5).os (.node 0) .READY) (.node 1)
      .READY)).2.target = some 1 ∧
    (OSEK_Scheduler (store (store (main 1 3 5).os (.node 0) .READY) (.node 1)
      .READY)).1.g_actual_task_sp = some 1 ∧
    dispatchHistory (createAll Kernel.reset (mainTasks 1 3 5)) 7 = [0, 1, 2] :=
  ⟨rfl, rfl,
    ((priority_ratchet (store (store (main 1 3 5).os (.node 0) .READY) (.node 1) .READY)
      (mainTasks 1 3 5) 7).2.1 0 1 ⟨1, true, .READY, some (task_a (.node 1))⟩ rfl rfl rfl).1,
    rfl⟩

end OSEK
